import Mathlib

/-!
Verification development for the randflake identifier generator and its
SPARX-64/128 permutation cipher.  Machine integers from the source
(uint16, uint64, int64) are embedded as `Nat`/`Int` with explicit
`% 2^w` reductions at every operation where the source wraps.
-/

set_option maxRecDepth 4000

deriving instance DecidableEq for Except

/-! ## SPARX-64/128 cipher (source file: sparx64 package) -/

/-- 16-bit left rotation (source: `rotl`).  The Go shift `x << n` on a
`uint16` truncates to 16 bits, hence the `% 65536`. -/
def rotl (x n : Nat) : Nat :=
  ((x <<< n) % 65536) ||| (x >>> (16 - n))

/-- One keyless round of SPECK-32 on a pair of 16-bit words (source: `_A`).
`uint16` addition wraps, hence `% 65536`. -/
def _A (p : Nat × Nat) : Nat × Nat :=
  let l := rotl p.1 9
  let l := (l + p.2) % 65536
  let r := rotl p.2 2
  (l, r ^^^ l)

/-- Inverse of `_A` (source: `_A_inv`).  `uint16` subtraction `l - r` wraps,
embedded as `(l + 65536 - r) % 65536` (the two agree for `r ≤ 65536`). -/
def _A_inv (p : Nat × Nat) : Nat × Nat :=
  let r := p.2 ^^^ p.1
  let r := rotl r 14
  let l := (p.1 + 65536 - r) % 65536
  (rotl l 7, r)

/-- A 64-bit cipher block of four 16-bit words, `x[0] .. x[3]` in the source. -/
structure Blk where
  x0 : Nat
  x1 : Nat
  x2 : Nat
  x3 : Nat
deriving Repr, DecidableEq

/-- Linear layer for SPARX-64/128 (source: `_L_2`): xor-diffusion then the
two swaps `x0 ↔ x2`, `x1 ↔ x3`. -/
def _L_2 (b : Blk) : Blk :=
  let tmp := rotl (b.x0 ^^^ b.x1) 8
  ⟨b.x2 ^^^ (b.x0 ^^^ tmp), b.x3 ^^^ (b.x1 ^^^ tmp), b.x0, b.x1⟩

/-- Inverse of `_L_2` (source: `_L_2_inv`): swaps first, then the same
xor-diffusion. -/
def _L_2_inv (b : Blk) : Blk :=
  let y0 := b.x2
  let y1 := b.x3
  let y2 := b.x0
  let y3 := b.x1
  let tmp := rotl (y0 ^^^ y1) 8
  ⟨y0, y1, y2 ^^^ (y0 ^^^ tmp), y3 ^^^ (y1 ^^^ tmp)⟩

/-- The 8-word key state `k[0] .. k[7]`. -/
structure KeyState where
  k0 : Nat
  k1 : Nat
  k2 : Nat
  k3 : Nat
  k4 : Nat
  k5 : Nat
  k6 : Nat
  k7 : Nat
deriving Repr, DecidableEq

/-- One 6-word round-key set `subkeys[c][0] .. subkeys[c][5]`. -/
structure RoundKeys where
  r0 : Nat
  r1 : Nat
  r2 : Nat
  r3 : Nat
  r4 : Nat
  r5 : Nat
deriving Repr, DecidableEq

/-- Key permutation for SPARX-64/128 (source: `_K_perm_64_128`):
`_A` on `(k0,k1)`, `k2 += k0`, `k3 += k1`, `k7 += c`, then rotate the
8-word array right by two positions. -/
def _K_perm_64_128 (k : KeyState) (c : Nat) : KeyState :=
  let p := _A (k.k0, k.k1)
  let k2 := (k.k2 + p.1) % 65536
  let k3 := (k.k3 + p.2) % 65536
  let k7 := (k.k7 + c) % 65536
  ⟨k.k6, k7, p.1, p.2, k2, k3, k.k4, k.k5⟩

/-- First six words of the key state, copied out as one round-key set
(the `copy(subkeys[c][:], masterKey[:6])` of the source). -/
def extractRK (k : KeyState) : RoundKeys :=
  ⟨k.k0, k.k1, k.k2, k.k3, k.k4, k.k5⟩

/-- The 17 round-key sets (`subkeys[0] .. subkeys[16]`). -/
structure Subkeys where
  s0 : RoundKeys
  s1 : RoundKeys
  s2 : RoundKeys
  s3 : RoundKeys
  s4 : RoundKeys
  s5 : RoundKeys
  s6 : RoundKeys
  s7 : RoundKeys
  s8 : RoundKeys
  s9 : RoundKeys
  s10 : RoundKeys
  s11 : RoundKeys
  s12 : RoundKeys
  s13 : RoundKeys
  s14 : RoundKeys
  s15 : RoundKeys
  s16 : RoundKeys
deriving Repr, DecidableEq

/-- Key schedule (source: `key_schedule`): `subkeys[c]` is the current key
state's first six words; the state is then permuted with constant `c+1`. -/
def key_schedule (k : KeyState) : Subkeys :=
  let m0 := k
  let m1 := _K_perm_64_128 m0 1
  let m2 := _K_perm_64_128 m1 2
  let m3 := _K_perm_64_128 m2 3
  let m4 := _K_perm_64_128 m3 4
  let m5 := _K_perm_64_128 m4 5
  let m6 := _K_perm_64_128 m5 6
  let m7 := _K_perm_64_128 m6 7
  let m8 := _K_perm_64_128 m7 8
  let m9 := _K_perm_64_128 m8 9
  let m10 := _K_perm_64_128 m9 10
  let m11 := _K_perm_64_128 m10 11
  let m12 := _K_perm_64_128 m11 12
  let m13 := _K_perm_64_128 m12 13
  let m14 := _K_perm_64_128 m13 14
  let m15 := _K_perm_64_128 m14 15
  let m16 := _K_perm_64_128 m15 16
  ⟨extractRK m0, extractRK m1, extractRK m2, extractRK m3, extractRK m4,
   extractRK m5, extractRK m6, extractRK m7, extractRK m8, extractRK m9,
   extractRK m10, extractRK m11, extractRK m12, extractRK m13, extractRK m14,
   extractRK m15, extractRK m16⟩

/-- One encryption round: xor the branch with two round-key words, then `_A`
(the loop body over `r` in `sparx_encrypt`). -/
def round_with_key (a b : Nat) (p : Nat × Nat) : Nat × Nat :=
  _A (p.1 ^^^ a, p.2 ^^^ b)

/-- Three encryption rounds of one branch with one round-key set. -/
def branch_rounds (ks : RoundKeys) (p : Nat × Nat) : Nat × Nat :=
  round_with_key ks.r4 ks.r5 (round_with_key ks.r2 ks.r3 (round_with_key ks.r0 ks.r1 p))

/-- One encryption step `s`: three rounds on each branch with key sets
`k[2s]`/`k[2s+1]`, then the linear layer. -/
def enc_step (kA kB : RoundKeys) (b : Blk) : Blk :=
  let p := branch_rounds kA (b.x0, b.x1)
  let q := branch_rounds kB (b.x2, b.x3)
  _L_2 ⟨p.1, p.2, q.1, q.2⟩

/-- Final whitening with the first four words of `k[16]`. -/
def whiten (kW : RoundKeys) (b : Blk) : Blk :=
  ⟨b.x0 ^^^ kW.r0, b.x1 ^^^ kW.r1, b.x2 ^^^ kW.r2, b.x3 ^^^ kW.r3⟩

/-- SPARX-64/128 encryption (source: `sparx_encrypt`): the 8 steps
`s = 0 .. 7` (using key sets `k[2s]`, `k[2s+1]`), then whitening. -/
def sparx_encrypt (b : Blk) (k : Subkeys) : Blk :=
  whiten k.s16 (enc_step k.s14 k.s15 (enc_step k.s12 k.s13 (enc_step k.s10 k.s11
    (enc_step k.s8 k.s9 (enc_step k.s6 k.s7 (enc_step k.s4 k.s5
      (enc_step k.s2 k.s3 (enc_step k.s0 k.s1 b))))))))

/-- One decryption round: `_A_inv`, then xor with two round-key words. -/
def round_inv_with_key (a b : Nat) (p : Nat × Nat) : Nat × Nat :=
  let q := _A_inv p
  (q.1 ^^^ a, q.2 ^^^ b)

/-- Three decryption rounds of one branch, in reverse round order. -/
def branch_rounds_inv (ks : RoundKeys) (p : Nat × Nat) : Nat × Nat :=
  round_inv_with_key ks.r0 ks.r1 (round_inv_with_key ks.r2 ks.r3
    (round_inv_with_key ks.r4 ks.r5 p))

/-- One decryption step: inverse linear layer, then the branch inverses. -/
def dec_step (kA kB : RoundKeys) (b : Blk) : Blk :=
  let b2 := _L_2_inv b
  let p := branch_rounds_inv kA (b2.x0, b2.x1)
  let q := branch_rounds_inv kB (b2.x2, b2.x3)
  ⟨p.1, p.2, q.1, q.2⟩

/-- SPARX-64/128 decryption (source: `sparx_decrypt`): undo whitening, then
the steps `s = 7 .. 0` in reverse. -/
def sparx_decrypt (b : Blk) (k : Subkeys) : Blk :=
  dec_step k.s0 k.s1 (dec_step k.s2 k.s3 (dec_step k.s4 k.s5 (dec_step k.s6 k.s7
    (dec_step k.s8 k.s9 (dec_step k.s10 k.s11 (dec_step k.s12 k.s13
      (dec_step k.s14 k.s15 (whiten k.s16 b))))))))

/-- Big-endian packing of two bytes into a 16-bit word
(`uint16(b0)<<8 | uint16(b1)` in the source). -/
def word_be (hi lo : Nat) : Nat :=
  (hi <<< 8) ||| lo

/-- Key setup from 16 bytes (source: `NewSparx64`): pack the key bytes
big-endian into eight 16-bit words and run the key schedule. -/
def NewSparx64 (key : List Nat) : Subkeys :=
  key_schedule
    ⟨word_be (key.getD 0 0) (key.getD 1 0), word_be (key.getD 2 0) (key.getD 3 0),
     word_be (key.getD 4 0) (key.getD 5 0), word_be (key.getD 6 0) (key.getD 7 0),
     word_be (key.getD 8 0) (key.getD 9 0), word_be (key.getD 10 0) (key.getD 11 0),
     word_be (key.getD 12 0) (key.getD 13 0), word_be (key.getD 14 0) (key.getD 15 0)⟩

/-- 8-byte block from a byte list, big-endian per 16-bit word
(the packing in methods `Encrypt`/`Decrypt`). -/
def blk_of_bytes (s : List Nat) : Blk :=
  ⟨word_be (s.getD 0 0) (s.getD 1 0), word_be (s.getD 2 0) (s.getD 3 0),
   word_be (s.getD 4 0) (s.getD 5 0), word_be (s.getD 6 0) (s.getD 7 0)⟩

/-- Byte list from a block, big-endian per 16-bit word; the Go `byte(x)`
conversion truncates, hence the `% 256`. -/
def bytes_of_blk (b : Blk) : List Nat :=
  [(b.x0 >>> 8) % 256, b.x0 % 256, (b.x1 >>> 8) % 256, b.x1 % 256,
   (b.x2 >>> 8) % 256, b.x2 % 256, (b.x3 >>> 8) % 256, b.x3 % 256]

/-- Byte-level encryption (source: method `Encrypt` of `Sparx64`). -/
def SparxEncryptBytes (s : Subkeys) (src : List Nat) : List Nat :=
  bytes_of_blk (sparx_encrypt (blk_of_bytes src) s)

/-- Byte-level decryption (source: method `Decrypt` of `Sparx64`). -/
def SparxDecryptBytes (s : Subkeys) (src : List Nat) : List Nat :=
  bytes_of_blk (sparx_decrypt (blk_of_bytes src) s)

/-! ## Signed/unsigned 64-bit reinterpretation

Go's `uint64(i)` on an `int64` takes the two's-complement bit pattern;
`int64(u)` is its inverse. -/

/-- Bit pattern of an `int64` as a `Nat` below `2^64`. -/
def int64_to_u64 (i : Int) : Nat :=
  (i % (2 ^ 64 : Int)).toNat

/-- Signed value of a 64-bit pattern (negative when bit 63 is set). -/
def u64_to_int64 (n : Nat) : Int :=
  if n < 2 ^ 63 then (n : Int) else (n : Int) - 2 ^ 64

/-! ## Little-endian uint64 byte codec (`binary.LittleEndian`) -/

/-- `binary.LittleEndian.PutUint64`: byte `i` is `byte(v >> 8i)`. -/
def u64_to_bytes_le (u : Nat) : List Nat :=
  [u % 256, (u >>> 8) % 256, (u >>> 16) % 256, (u >>> 24) % 256,
   (u >>> 32) % 256, (u >>> 40) % 256, (u >>> 48) % 256, (u >>> 56) % 256]

/-- `binary.LittleEndian.Uint64`: or together the bytes shifted into place. -/
def bytes_le_to_u64 (b : List Nat) : Nat :=
  b.getD 0 0 ||| (b.getD 1 0) <<< 8 ||| (b.getD 2 0) <<< 16 ||| (b.getD 3 0) <<< 24 |||
    (b.getD 4 0) <<< 32 ||| (b.getD 5 0) <<< 40 ||| (b.getD 6 0) <<< 48 ||| (b.getD 7 0) <<< 56

/-- The uint64-level cipher applied by `Generate`: serialize little-endian,
encrypt the 8-byte block, deserialize. -/
def encrypt_id (k : Subkeys) (u : Nat) : Nat :=
  bytes_le_to_u64 (SparxEncryptBytes k (u64_to_bytes_le u))

/-- The uint64-level inverse cipher applied by `Inspect`. -/
def decrypt_id (k : Subkeys) (u : Nat) : Nat :=
  bytes_le_to_u64 (SparxDecryptBytes k (u64_to_bytes_le u))

/-! ## Randflake generator (source file: randflake.go) -/

inductive RandflakeError where
  | randflakeDead
  | invalidSecret
  | invalidLease
  | invalidNode
  | resourceExhausted
  | consistencyViolation
  | invalidID
deriving Repr, DecidableEq

def RANDFLAKE_EPOCH_OFFSET : Int := 1730000000

def RANDFLAKE_TIMESTAMP_BITS : Nat := 30

def RANDFLAKE_NODE_BITS : Nat := 17

def RANDFLAKE_SEQUENCE_BITS : Nat := 17

def RANDFLAKE_MAX_TIMESTAMP : Int := RANDFLAKE_EPOCH_OFFSET + 2 ^ 30 - 1

def RANDFLAKE_MAX_NODE : Int := 2 ^ 17 - 1

def RANDFLAKE_MAX_SEQUENCE : Int := 2 ^ 17 - 1

/-- Generator state.  The atomics (`leaseEnd`, `sequence`, `rollover`) are
plain fields: the claims treat the generator sequentially, so every
compare-and-swap succeeds. -/
structure Generator where
  leaseStart : Int
  leaseEnd : Int
  nodeID : Int
  sequence : Int
  rollover : Int
  sbox : Subkeys
deriving Repr, DecidableEq

/-- Constructor (source: `NewGenerator`), with its exact check order. -/
def NewGenerator (nodeID leaseStart leaseEnd : Int) (secret : List Nat) :
    Except RandflakeError Generator :=
  if leaseEnd < leaseStart then .error .invalidLease
  else if nodeID < 0 ∨ nodeID > RANDFLAKE_MAX_NODE then .error .invalidNode
  else if leaseStart < RANDFLAKE_EPOCH_OFFSET then .error .invalidLease
  else if leaseEnd > RANDFLAKE_MAX_TIMESTAMP then .error .randflakeDead
  else if secret.length ≠ 16 then .error .invalidSecret
  else .ok ⟨leaseStart, leaseEnd, nodeID, 0, leaseStart, NewSparx64 secret⟩

/-- Lease extension (source: `UpdateLease`), sequential semantics: the
compare-and-swap on `leaseEnd` always succeeds.  Returns the boolean result
together with the (possibly updated) generator. -/
def UpdateLease (g : Generator) (leaseStart leaseEnd : Int) : Bool × Generator :=
  if leaseStart ≠ g.leaseStart then (false, g)
  else if leaseEnd < leaseStart then (false, g)
  else if leaseEnd > RANDFLAKE_MAX_TIMESTAMP then (false, g)
  else if g.leaseEnd < leaseEnd then (true, { g with leaseEnd := leaseEnd })
  else (false, g)

/-- The raw-value packing of `newRAW`:
`timestamp<<34 | nodeID<<17 | sequence` on `int64`, i.e. bitwise on the
two's-complement patterns with shifts wrapping mod `2^64`. -/
def pack_raw (timestamp nodeID seq : Int) : Int :=
  u64_to_int64 ((((int64_to_u64 timestamp) <<< 34) % 2 ^ 64) |||
    (((int64_to_u64 nodeID) <<< 17) % 2 ^ 64) ||| (int64_to_u64 seq))

/-- Raw-value generation (source: `newRAW`) with an injected clock value
`now`, sequential semantics (the rollover compare-and-swap always succeeds,
so the retry loop never runs). -/
def newRAW (g : Generator) (now : Int) : Except RandflakeError (Int × Generator) :=
  if now < g.leaseStart then .error .invalidLease
  else if now > g.leaseEnd then .error .invalidLease
  else
    let ctr := g.sequence + 1
    if ctr > RANDFLAKE_MAX_SEQUENCE then
      if now > g.rollover then
        let g2 : Generator := { g with rollover := now, sequence := 0 }
        .ok (pack_raw (now - RANDFLAKE_EPOCH_OFFSET) g2.nodeID 0, g2)
      else if now < g.rollover then .error .consistencyViolation
      else .error .resourceExhausted
    else
      let g2 : Generator := { g with sequence := ctr }
      .ok (pack_raw (now - RANDFLAKE_EPOCH_OFFSET) g2.nodeID ctr, g2)

/-- Identifier generation (source: `Generate`): raw value, then the cipher
over the little-endian uint64 bytes. -/
def Generate (g : Generator) (now : Int) : Except RandflakeError (Int × Generator) :=
  match newRAW g now with
  | .error e => .error e
  | .ok (id, g2) => .ok (u64_to_int64 (encrypt_id g2.sbox (int64_to_u64 id)), g2)

/-- Identifier inspection (source: `Inspect`): decrypt, reject a negative
signed raw value (`id < 0`, i.e. bit 63 set), then unpack the fields.  For a
non-negative `int64` the Go arithmetic shifts and masks coincide with the
`Nat` operations on the bit pattern used here. -/
def Inspect (g : Generator) (id : Int) : Except RandflakeError (Int × Int × Int) :=
  let u := decrypt_id g.sbox (int64_to_u64 id)
  if 2 ^ 63 ≤ u then .error .invalidLease
  else .ok (((u >>> 34 : Nat) : Int) + RANDFLAKE_EPOCH_OFFSET,
    (((u >>> 17) &&& 131071 : Nat) : Int), ((u &&& 131071 : Nat) : Int))

/-! ## base32hex string codec (source: `base32hexencode` / `base32hexdecode`) -/

def b32hexchars : List Char := "0123456789abcdefghijklmnopqrstuv".toList

/-- Digit-extraction loop of `base32hexencode`: append `chars[num & 0x1f]`
on the left and shift `num` right by 5 until it is zero.  The source writes
into a fixed 13-byte buffer; `fuel` is the number of buffer slots still
free (13 slots hold every `uint64`, since `32^13 = 2^65`). -/
def base32hexencode_go : Nat → Nat → List Char → List Char
  | 0, _, acc => acc
  | fuel + 1, num, acc =>
    if num = 0 then acc
    else base32hexencode_go fuel (num >>> 5) (b32hexchars.getD (num &&& 0x1f) ' ' :: acc)

/-- Source: `base32hexencode`.  `0` encodes as `"0"`. -/
def base32hexencode (num : Nat) : String :=
  if num = 0 then "0" else String.mk (base32hexencode_go 13 num [])

/-- The per-character branches of the decode loop. -/
def charVal (c : Char) : Option Nat :=
  if '0' ≤ c ∧ c ≤ '9' then some (c.toNat - '0'.toNat)
  else if 'a' ≤ c ∧ c ≤ 'v' then some (c.toNat - 'a'.toNat + 10)
  else if 'A' ≤ c ∧ c ≤ 'V' then some (c.toNat - 'A'.toNat + 10)
  else none

/-- Decode loop of `base32hexdecode`: stop at `'='`, else shift the
accumulator left by 5 and add the character's value, both on `uint64`
(wrapping mod `2^64`); any other character is `ErrInvalidID`. -/
def base32hexdecode_go (num : Nat) : List Char → Except RandflakeError Nat
  | [] => .ok num
  | c :: cs =>
    if c = '=' then .ok num
    else
      match charVal c with
      | some d => base32hexdecode_go (((num <<< 5) % 2 ^ 64 + d) % 2 ^ 64) cs
      | none => .error .invalidID

/-- Source: `base32hexdecode`. -/
def base32hexdecode (s : String) : Except RandflakeError Nat :=
  base32hexdecode_go 0 s.toList

/-- Source: `EncodeString` (`base32hexencode(uint64(id))`). -/
def EncodeString (id : Int) : String :=
  base32hexencode (int64_to_u64 id)

/-- Source: `DecodeString` (`int64(base32hexdecode(s))`). -/
def DecodeString (s : String) : Except RandflakeError Int :=
  match base32hexdecode s with
  | .error e => .error e
  | .ok n => .ok (u64_to_int64 n)

/-! ## Concrete data used in ground instances -/

/-- The 16-byte key of the repository's SPARX test vector. -/
def sparxTestKey : List Nat :=
  [0x00, 0x11, 0x22, 0x33, 0x44, 0x55, 0x66, 0x77,
   0x88, 0x99, 0xaa, 0xbb, 0xcc, 0xdd, 0xee, 0xff]

/-- The 8-byte plaintext of the repository's SPARX test vector. -/
def sparxTestPlain : List Nat :=
  [0x01, 0x23, 0x45, 0x67, 0x89, 0xab, 0xcd, 0xef]

/-- A generator as produced by
`NewGenerator 0 1730000000 RANDFLAKE_MAX_TIMESTAMP sparxTestKey`. -/
def testGenerator : Generator :=
  ⟨1730000000, RANDFLAKE_MAX_TIMESTAMP, 0, 0, 1730000000, NewSparx64 sparxTestKey⟩

/-! ## Bound predicates -/

/-- All four words of a block fit in 16 bits (an 8-byte block). -/
abbrev BlkBounded (b : Blk) : Prop :=
  b.x0 < 65536 ∧ b.x1 < 65536 ∧ b.x2 < 65536 ∧ b.x3 < 65536

/-- All six words of a round-key set fit in 16 bits. -/
abbrev RKBounded (k : RoundKeys) : Prop :=
  k.r0 < 65536 ∧ k.r1 < 65536 ∧ k.r2 < 65536 ∧ k.r3 < 65536 ∧ k.r4 < 65536 ∧ k.r5 < 65536

/-- All eight words of a key state fit in 16 bits. -/
abbrev KSBounded (k : KeyState) : Prop :=
  k.k0 < 65536 ∧ k.k1 < 65536 ∧ k.k2 < 65536 ∧ k.k3 < 65536 ∧
    k.k4 < 65536 ∧ k.k5 < 65536 ∧ k.k6 < 65536 ∧ k.k7 < 65536

/-- All seventeen round-key sets fit in 16 bits. -/
abbrev SubkeysBounded (k : Subkeys) : Prop :=
  RKBounded k.s0 ∧ RKBounded k.s1 ∧ RKBounded k.s2 ∧ RKBounded k.s3 ∧
    RKBounded k.s4 ∧ RKBounded k.s5 ∧ RKBounded k.s6 ∧ RKBounded k.s7 ∧
    RKBounded k.s8 ∧ RKBounded k.s9 ∧ RKBounded k.s10 ∧ RKBounded k.s11 ∧
    RKBounded k.s12 ∧ RKBounded k.s13 ∧ RKBounded k.s14 ∧ RKBounded k.s15 ∧
    RKBounded k.s16

/-- A list of bytes: every element (and the `getD` default) below 256. -/
abbrev BytesValid (l : List Nat) : Prop := ∀ x ∈ l, x < 256

/-! ## Word bounds and rotation algebra -/





lemma word16_or_lt {a b : Nat} (ha : a < 65536) (hb : b < 65536) : a ||| b < 65536 := by
  have h16 : (65536 : Nat) = 2 ^ 16 := by norm_num
  rw [h16] at ha hb ⊢
  exact Nat.or_lt_two_pow ha hb

lemma word16_xor_lt {a b : Nat} (ha : a < 65536) (hb : b < 65536) : a ^^^ b < 65536 := by
  have h16 : (65536 : Nat) = 2 ^ 16 := by norm_num
  rw [h16] at ha hb ⊢
  exact Nat.xor_lt_two_pow ha hb

lemma rotl_lt {x : Nat} (n : Nat) (hx : x < 65536) : rotl x n < 65536 := by
  unfold rotl
  refine word16_or_lt (Nat.mod_lt _ (by norm_num)) ?_
  calc x >>> (16 - n) ≤ x := by
        rw [Nat.shiftRight_eq_div_pow]; exact Nat.div_le_self _ _
    _ < 65536 := hx

lemma rotl_eq_arith (x n : Nat) (hn : n ≤ 16) (hx : x < 65536) :
    rotl x n = x % 2 ^ (16 - n) * 2 ^ n + x / 2 ^ (16 - n) := by
  unfold rotl
  have e65536 : (65536 : Nat) = 2 ^ (16 - n) * 2 ^ n := by
    rw [← pow_add]
    have h : 16 - n + n = 16 := by omega
    rw [h]
    norm_num
  have hdiv : x / 2 ^ (16 - n) < 2 ^ n := by
    refine Nat.div_lt_of_lt_mul ?_
    rw [← e65536]
    exact hx
  rw [Nat.shiftLeft_eq, Nat.shiftRight_eq_div_pow, e65536, Nat.mul_mod_mul_right,
    Nat.mul_comm (x % 2 ^ (16 - n)) (2 ^ n), ← Nat.mul_add_lt_is_or hdiv,
    Nat.mul_comm (2 ^ n) (x % 2 ^ (16 - n))]

lemma rotl_rotl (x a b : Nat) (hab : a + b = 16) (hx : x < 65536) :
    rotl (rotl x a) b = x := by
  have ha : a ≤ 16 := by omega
  have hb : b ≤ 16 := by omega
  have hlt : rotl x a < 65536 := rotl_lt a hx
  rw [rotl_eq_arith (rotl x a) b hb hlt, rotl_eq_arith x a ha hx]
  have e1 : 16 - a = b := by omega
  have e2 : 16 - b = a := by omega
  rw [e1, e2]
  have hdb : x / 2 ^ b < 2 ^ a := by
    refine Nat.div_lt_of_lt_mul ?_
    calc x < 65536 := hx
      _ = 2 ^ b * 2 ^ a := by
          rw [← pow_add]
          have h : b + a = 16 := by omega
          rw [h]
          norm_num
  rw [Nat.add_comm (x % 2 ^ b * 2 ^ a) (x / 2 ^ b), Nat.add_mul_mod_self_right,
    Nat.mod_eq_of_lt hdb, Nat.add_mul_div_right _ _ (Nat.pos_pow_of_pos a (by norm_num)),
    Nat.div_eq_of_lt hdb]
  rw [Nat.zero_add, Nat.mul_comm (x / 2 ^ b) (2 ^ b)]
  exact Nat.div_add_mod x (2 ^ b)

/-! ## Inverse lemmas for the cipher components -/

lemma _A_fst_lt {l r : Nat} (_hl : l < 65536) (_hr : r < 65536) : (_A (l, r)).1 < 65536 := by
  unfold _A
  exact Nat.mod_lt _ (by norm_num)

lemma _A_snd_lt {l r : Nat} (_hl : l < 65536) (hr : r < 65536) : (_A (l, r)).2 < 65536 := by
  unfold _A
  exact word16_xor_lt (rotl_lt 2 hr) (Nat.mod_lt _ (by norm_num))

lemma _A_inv_A {l r : Nat} (hl : l < 65536) (hr : r < 65536) :
    _A_inv (_A (l, r)) = (l, r) := by
  unfold _A _A_inv
  simp only
  rw [Nat.xor_cancel_right, rotl_rotl r 2 14 (by norm_num) hr]
  have hrl : rotl l 9 < 65536 := rotl_lt 9 hl
  have hsub : ((rotl l 9 + r) % 65536 + 65536 - r) % 65536 = rotl l 9 := by omega
  rw [hsub, rotl_rotl l 9 7 (by norm_num) hl]

lemma _L_2_inv_L_2 (b : Blk) : _L_2_inv (_L_2 b) = b := by
  cases b with
  | mk x0 x1 x2 x3 =>
    unfold _L_2 _L_2_inv
    simp only
    rw [Nat.xor_cancel_right, Nat.xor_cancel_right]

lemma _L_2_bounded {b : Blk} (hb : BlkBounded b) : BlkBounded (_L_2 b) := by
  obtain ⟨h0, h1, h2, h3⟩ := hb
  unfold _L_2
  refine ⟨?_, ?_, h0, h1⟩ <;>
    exact word16_xor_lt (by assumption)
      (word16_xor_lt (by assumption) (rotl_lt 8 (word16_xor_lt h0 h1)))

lemma round_with_key_fst_lt {a b : Nat} (ha : a < 65536) (hb : b < 65536)
    {p : Nat × Nat} (h1 : p.1 < 65536) (h2 : p.2 < 65536) :
    (round_with_key a b p).1 < 65536 := by
  unfold round_with_key
  exact _A_fst_lt (word16_xor_lt h1 ha) (word16_xor_lt h2 hb)

lemma round_with_key_snd_lt {a b : Nat} (ha : a < 65536) (hb : b < 65536)
    {p : Nat × Nat} (h1 : p.1 < 65536) (h2 : p.2 < 65536) :
    (round_with_key a b p).2 < 65536 := by
  unfold round_with_key
  exact _A_snd_lt (word16_xor_lt h1 ha) (word16_xor_lt h2 hb)

lemma round_inv_with_key_round {a b : Nat} (ha : a < 65536) (hb : b < 65536)
    {p : Nat × Nat} (h1 : p.1 < 65536) (h2 : p.2 < 65536) :
    round_inv_with_key a b (round_with_key a b p) = p := by
  unfold round_with_key round_inv_with_key
  rw [_A_inv_A (word16_xor_lt h1 ha) (word16_xor_lt h2 hb)]
  simp [Nat.xor_cancel_right]

lemma branch_rounds_fst_lt {ks : RoundKeys} (hk : RKBounded ks)
    {p : Nat × Nat} (h1 : p.1 < 65536) (h2 : p.2 < 65536) :
    (branch_rounds ks p).1 < 65536 := by
  obtain ⟨hr0, hr1, hr2, hr3, hr4, hr5⟩ := hk
  unfold branch_rounds
  exact round_with_key_fst_lt hr4 hr5
    (round_with_key_fst_lt hr2 hr3 (round_with_key_fst_lt hr0 hr1 h1 h2)
      (round_with_key_snd_lt hr0 hr1 h1 h2))
    (round_with_key_snd_lt hr2 hr3 (round_with_key_fst_lt hr0 hr1 h1 h2)
      (round_with_key_snd_lt hr0 hr1 h1 h2))

lemma branch_rounds_snd_lt {ks : RoundKeys} (hk : RKBounded ks)
    {p : Nat × Nat} (h1 : p.1 < 65536) (h2 : p.2 < 65536) :
    (branch_rounds ks p).2 < 65536 := by
  obtain ⟨hr0, hr1, hr2, hr3, hr4, hr5⟩ := hk
  unfold branch_rounds
  exact round_with_key_snd_lt hr4 hr5
    (round_with_key_fst_lt hr2 hr3 (round_with_key_fst_lt hr0 hr1 h1 h2)
      (round_with_key_snd_lt hr0 hr1 h1 h2))
    (round_with_key_snd_lt hr2 hr3 (round_with_key_fst_lt hr0 hr1 h1 h2)
      (round_with_key_snd_lt hr0 hr1 h1 h2))

lemma branch_rounds_inv_branch_rounds {ks : RoundKeys} (hk : RKBounded ks)
    {p : Nat × Nat} (h1 : p.1 < 65536) (h2 : p.2 < 65536) :
    branch_rounds_inv ks (branch_rounds ks p) = p := by
  obtain ⟨hr0, hr1, hr2, hr3, hr4, hr5⟩ := hk
  unfold branch_rounds branch_rounds_inv
  rw [round_inv_with_key_round hr4 hr5
      (round_with_key_fst_lt hr2 hr3 (round_with_key_fst_lt hr0 hr1 h1 h2)
        (round_with_key_snd_lt hr0 hr1 h1 h2))
      (round_with_key_snd_lt hr2 hr3 (round_with_key_fst_lt hr0 hr1 h1 h2)
        (round_with_key_snd_lt hr0 hr1 h1 h2)),
    round_inv_with_key_round hr2 hr3 (round_with_key_fst_lt hr0 hr1 h1 h2)
      (round_with_key_snd_lt hr0 hr1 h1 h2),
    round_inv_with_key_round hr0 hr1 h1 h2]

lemma enc_step_bounded {kA kB : RoundKeys} (hA : RKBounded kA) (hB : RKBounded kB)
    {b : Blk} (hb : BlkBounded b) : BlkBounded (enc_step kA kB b) := by
  obtain ⟨h0, h1, h2, h3⟩ := hb
  unfold enc_step
  exact _L_2_bounded
    ⟨branch_rounds_fst_lt hA h0 h1, branch_rounds_snd_lt hA h0 h1,
     branch_rounds_fst_lt hB h2 h3, branch_rounds_snd_lt hB h2 h3⟩

lemma dec_step_enc_step {kA kB : RoundKeys} (hA : RKBounded kA) (hB : RKBounded kB)
    {b : Blk} (hb : BlkBounded b) : dec_step kA kB (enc_step kA kB b) = b := by
  obtain ⟨h0, h1, h2, h3⟩ := hb
  unfold enc_step dec_step
  rw [_L_2_inv_L_2]
  simp only
  rw [branch_rounds_inv_branch_rounds hA h0 h1, branch_rounds_inv_branch_rounds hB h2 h3]

lemma whiten_whiten (kW : RoundKeys) (b : Blk) : whiten kW (whiten kW b) = b := by
  cases b with
  | mk x0 x1 x2 x3 =>
    unfold whiten
    simp only
    rw [Nat.xor_cancel_right, Nat.xor_cancel_right, Nat.xor_cancel_right,
      Nat.xor_cancel_right]

/-! ## Whole-cipher inverse and key-schedule bounds -/

lemma sparx_decrypt_encrypt {k : Subkeys} (hk : SubkeysBounded k)
    {b : Blk} (hb : BlkBounded b) : sparx_decrypt (sparx_encrypt b k) k = b := by
  obtain ⟨h0, h1, h2, h3, h4, h5, h6, h7, h8, h9, h10, h11, h12, h13, h14, h15, h16⟩ := hk
  have b1 := enc_step_bounded h0 h1 hb
  have b2 := enc_step_bounded h2 h3 b1
  have b3 := enc_step_bounded h4 h5 b2
  have b4 := enc_step_bounded h6 h7 b3
  have b5 := enc_step_bounded h8 h9 b4
  have b6 := enc_step_bounded h10 h11 b5
  have b7 := enc_step_bounded h12 h13 b6
  have b8 := enc_step_bounded h14 h15 b7
  unfold sparx_encrypt sparx_decrypt
  rw [whiten_whiten, dec_step_enc_step h14 h15 b7, dec_step_enc_step h12 h13 b6,
    dec_step_enc_step h10 h11 b5, dec_step_enc_step h8 h9 b4, dec_step_enc_step h6 h7 b3,
    dec_step_enc_step h4 h5 b2, dec_step_enc_step h2 h3 b1, dec_step_enc_step h0 h1 hb]

lemma _K_perm_bounded {k : KeyState} (hk : KSBounded k) (c : Nat) :
    KSBounded (_K_perm_64_128 k c) := by
  obtain ⟨h0, h1, h2, h3, h4, h5, h6, h7⟩ := hk
  unfold _K_perm_64_128
  exact ⟨h6, Nat.mod_lt _ (by norm_num), _A_fst_lt h0 h1, _A_snd_lt h0 h1,
    Nat.mod_lt _ (by norm_num), Nat.mod_lt _ (by norm_num), h4, h5⟩

lemma extractRK_bounded {k : KeyState} (hk : KSBounded k) : RKBounded (extractRK k) := by
  obtain ⟨h0, h1, h2, h3, h4, h5, h6, h7⟩ := hk
  exact ⟨h0, h1, h2, h3, h4, h5⟩

lemma key_schedule_bounded {k : KeyState} (hk : KSBounded k) :
    SubkeysBounded (key_schedule k) := by
  have p1 := _K_perm_bounded hk 1
  have p2 := _K_perm_bounded p1 2
  have p3 := _K_perm_bounded p2 3
  have p4 := _K_perm_bounded p3 4
  have p5 := _K_perm_bounded p4 5
  have p6 := _K_perm_bounded p5 6
  have p7 := _K_perm_bounded p6 7
  have p8 := _K_perm_bounded p7 8
  have p9 := _K_perm_bounded p8 9
  have p10 := _K_perm_bounded p9 10
  have p11 := _K_perm_bounded p10 11
  have p12 := _K_perm_bounded p11 12
  have p13 := _K_perm_bounded p12 13
  have p14 := _K_perm_bounded p13 14
  have p15 := _K_perm_bounded p14 15
  have p16 := _K_perm_bounded p15 16
  exact ⟨extractRK_bounded hk, extractRK_bounded p1, extractRK_bounded p2,
    extractRK_bounded p3, extractRK_bounded p4, extractRK_bounded p5,
    extractRK_bounded p6, extractRK_bounded p7, extractRK_bounded p8,
    extractRK_bounded p9, extractRK_bounded p10, extractRK_bounded p11,
    extractRK_bounded p12, extractRK_bounded p13, extractRK_bounded p14,
    extractRK_bounded p15, extractRK_bounded p16⟩

lemma word_be_lt {hi lo : Nat} (hhi : hi < 256) (hlo : lo < 256) :
    word_be hi lo < 65536 := by
  unfold word_be
  refine word16_or_lt ?_ (by omega)
  rw [Nat.shiftLeft_eq]
  omega


lemma getD_lt {l : List Nat} (h : BytesValid l) (i : Nat) : l.getD i 0 < 256 := by
  rcases Nat.lt_or_ge i l.length with hi | hi
  · rw [List.getD_eq_getElem _ _ hi]
    exact h _ (List.getElem_mem hi)
  · rw [List.getD_eq_default _ _ hi]
    norm_num

lemma NewSparx64_bounded {key : List Nat} (h : BytesValid key) :
    SubkeysBounded (NewSparx64 key) := by
  unfold NewSparx64
  exact key_schedule_bounded
    ⟨word_be_lt (getD_lt h 0) (getD_lt h 1), word_be_lt (getD_lt h 2) (getD_lt h 3),
     word_be_lt (getD_lt h 4) (getD_lt h 5), word_be_lt (getD_lt h 6) (getD_lt h 7),
     word_be_lt (getD_lt h 8) (getD_lt h 9), word_be_lt (getD_lt h 10) (getD_lt h 11),
     word_be_lt (getD_lt h 12) (getD_lt h 13), word_be_lt (getD_lt h 14) (getD_lt h 15)⟩

/-! ## Byte-level packing round trips -/

lemma word_be_eq_arith {hi lo : Nat} (hlo : lo < 256) : word_be hi lo = hi * 256 + lo := by
  unfold word_be
  rw [Nat.shiftLeft_eq, show (2 : Nat) ^ 8 = 256 from by norm_num,
    Nat.mul_comm hi 256, ← Nat.mul_add_lt_is_or (show lo < 2 ^ 8 by omega),
    Nat.mul_comm (2 ^ 8) hi, show (2 : Nat) ^ 8 = 256 from by norm_num]

lemma word_be_split (w : Nat) (hw : w < 65536) :
    word_be ((w >>> 8) % 256) (w % 256) = w := by
  rw [word_be_eq_arith (Nat.mod_lt _ (by norm_num)), Nat.shiftRight_eq_div_pow,
    show (2 : Nat) ^ 8 = 256 from by norm_num]
  omega

lemma blk_of_bytes_bounded {s : List Nat} (h : BytesValid s) :
    BlkBounded (blk_of_bytes s) :=
  ⟨word_be_lt (getD_lt h 0) (getD_lt h 1), word_be_lt (getD_lt h 2) (getD_lt h 3),
   word_be_lt (getD_lt h 4) (getD_lt h 5), word_be_lt (getD_lt h 6) (getD_lt h 7)⟩

lemma bytes_of_blk_valid (b : Blk) : BytesValid (bytes_of_blk b) := by
  unfold bytes_of_blk
  intro x hx
  simp only [List.mem_cons, List.not_mem_nil, or_false] at hx
  rcases hx with h | h | h | h | h | h | h | h <;> subst h <;> exact Nat.mod_lt _ (by norm_num)

lemma bytes_of_blk_length (b : Blk) : (bytes_of_blk b).length = 8 := by
  unfold bytes_of_blk
  rfl

lemma blk_of_bytes_bytes_of_blk {b : Blk} (hb : BlkBounded b) :
    blk_of_bytes (bytes_of_blk b) = b := by
  obtain ⟨h0, h1, h2, h3⟩ := hb
  cases b with
  | mk x0 x1 x2 x3 =>
    unfold bytes_of_blk blk_of_bytes
    simp only [List.getD_cons_zero, List.getD_cons_succ]
    rw [word_be_split _ h0, word_be_split _ h1, word_be_split _ h2, word_be_split _ h3]

lemma sparx_encrypt_bounded {k : Subkeys} (hk : SubkeysBounded k)
    {b : Blk} (hb : BlkBounded b) : BlkBounded (sparx_encrypt b k) := by
  obtain ⟨h0, h1, h2, h3, h4, h5, h6, h7, h8, h9, h10, h11, h12, h13, h14, h15, h16⟩ := hk
  have b8 := enc_step_bounded h14 h15 (enc_step_bounded h12 h13 (enc_step_bounded h10 h11
    (enc_step_bounded h8 h9 (enc_step_bounded h6 h7 (enc_step_bounded h4 h5
      (enc_step_bounded h2 h3 (enc_step_bounded h0 h1 hb)))))))
  obtain ⟨c0, c1, c2, c3⟩ := b8
  obtain ⟨w0, w1, w2, w3, w4, w5⟩ := h16
  unfold sparx_encrypt whiten
  exact ⟨word16_xor_lt c0 w0, word16_xor_lt c1 w1, word16_xor_lt c2 w2, word16_xor_lt c3 w3⟩

lemma bytes_of_blk_blk_of_bytes {s : List Nat} (hlen : s.length = 8) (hv : BytesValid s) :
    bytes_of_blk (blk_of_bytes s) = s := by
  obtain ⟨a, b, c, d, e, f, g, h, rfl⟩ :
      ∃ a b c d e f g h, s = [a, b, c, d, e, f, g, h] := by
    rcases s with _ | ⟨a, _ | ⟨b, _ | ⟨c, _ | ⟨d, _ | ⟨e, _ | ⟨f, _ | ⟨g, _ | ⟨h, _ | ⟨i, t⟩⟩⟩⟩⟩⟩⟩⟩⟩ <;>
      simp_all
  have ha : a < 256 := hv a (by simp)
  have hb : b < 256 := hv b (by simp)
  have hc : c < 256 := hv c (by simp)
  have hd : d < 256 := hv d (by simp)
  have he : e < 256 := hv e (by simp)
  have hf : f < 256 := hv f (by simp)
  have hg : g < 256 := hv g (by simp)
  have hh : h < 256 := hv h (by simp)
  unfold blk_of_bytes bytes_of_blk
  simp only [List.getD_cons_zero, List.getD_cons_succ]
  rw [word_be_eq_arith hb, word_be_eq_arith hd, word_be_eq_arith hf, word_be_eq_arith hh]
  simp only [Nat.shiftRight_eq_div_pow, show (2 : Nat) ^ 8 = 256 from by norm_num]
  have e1 : (a * 256 + b) / 256 % 256 = a := by omega
  have e2 : (a * 256 + b) % 256 = b := by omega
  have e3 : (c * 256 + d) / 256 % 256 = c := by omega
  have e4 : (c * 256 + d) % 256 = d := by omega
  have e5 : (e * 256 + f) / 256 % 256 = e := by omega
  have e6 : (e * 256 + f) % 256 = f := by omega
  have e7 : (g * 256 + h) / 256 % 256 = g := by omega
  have e8 : (g * 256 + h) % 256 = h := by omega
  rw [e1, e2, e3, e4, e5, e6, e7, e8]

/-- Byte-level decryption inverts byte-level encryption for every bounded
key schedule and every 8-byte block. -/
lemma sparx_bytes_roundtrip {k : Subkeys} (hk : SubkeysBounded k)
    {src : List Nat} (hlen : src.length = 8) (hv : BytesValid src) :
    SparxDecryptBytes k (SparxEncryptBytes k src) = src := by
  unfold SparxEncryptBytes SparxDecryptBytes
  rw [blk_of_bytes_bytes_of_blk (sparx_encrypt_bounded hk (blk_of_bytes_bounded hv)),
    sparx_decrypt_encrypt hk (blk_of_bytes_bounded hv),
    bytes_of_blk_blk_of_bytes hlen hv]

/-! ## uint64-level cipher round trip -/

lemma u64_to_bytes_le_length (u : Nat) : (u64_to_bytes_le u).length = 8 := rfl

lemma u64_to_bytes_le_valid (u : Nat) : BytesValid (u64_to_bytes_le u) := by
  unfold u64_to_bytes_le
  intro x hx
  simp only [List.mem_cons, List.not_mem_nil, or_false] at hx
  rcases hx with h | h | h | h | h | h | h | h <;> subst h <;> exact Nat.mod_lt _ (by norm_num)

lemma SparxEncryptBytes_length (k : Subkeys) (src : List Nat) :
    (SparxEncryptBytes k src).length = 8 :=
  bytes_of_blk_length _

lemma SparxEncryptBytes_valid (k : Subkeys) (src : List Nat) :
    BytesValid (SparxEncryptBytes k src) :=
  bytes_of_blk_valid _

lemma bytes_le_to_u64_eq_sum {a b c d e f g h : Nat} (ha : a < 256) (hb : b < 256)
    (hc : c < 256) (hd : d < 256) (he : e < 256) (hf : f < 256) (hg : g < 256)
    (_hh : h < 256) :
    bytes_le_to_u64 [a, b, c, d, e, f, g, h] =
      a + b * 256 + c * 256 ^ 2 + d * 256 ^ 3 + e * 256 ^ 4 + f * 256 ^ 5 +
        g * 256 ^ 6 + h * 256 ^ 7 := by
  unfold bytes_le_to_u64
  simp only [List.getD_cons_zero, List.getD_cons_succ, Nat.shiftLeft_eq]
  have e1 : a ||| b * 2 ^ 8 = b * 2 ^ 8 + a := by
    rw [Nat.lor_comm, Nat.mul_comm b (2 ^ 8), ← Nat.mul_add_lt_is_or (by omega),
      Nat.mul_comm (2 ^ 8) b]
  rw [e1]
  have e2 : b * 2 ^ 8 + a ||| c * 2 ^ 16 = c * 2 ^ 16 + (b * 2 ^ 8 + a) := by
    rw [Nat.lor_comm, Nat.mul_comm c (2 ^ 16), ← Nat.mul_add_lt_is_or (by omega),
      Nat.mul_comm (2 ^ 16) c]
  rw [e2]
  have e3 : c * 2 ^ 16 + (b * 2 ^ 8 + a) ||| d * 2 ^ 24 =
      d * 2 ^ 24 + (c * 2 ^ 16 + (b * 2 ^ 8 + a)) := by
    rw [Nat.lor_comm, Nat.mul_comm d (2 ^ 24), ← Nat.mul_add_lt_is_or (by omega),
      Nat.mul_comm (2 ^ 24) d]
  rw [e3]
  have e4 : d * 2 ^ 24 + (c * 2 ^ 16 + (b * 2 ^ 8 + a)) ||| e * 2 ^ 32 =
      e * 2 ^ 32 + (d * 2 ^ 24 + (c * 2 ^ 16 + (b * 2 ^ 8 + a))) := by
    rw [Nat.lor_comm, Nat.mul_comm e (2 ^ 32), ← Nat.mul_add_lt_is_or (by omega),
      Nat.mul_comm (2 ^ 32) e]
  rw [e4]
  have e5 : e * 2 ^ 32 + (d * 2 ^ 24 + (c * 2 ^ 16 + (b * 2 ^ 8 + a))) ||| f * 2 ^ 40 =
      f * 2 ^ 40 + (e * 2 ^ 32 + (d * 2 ^ 24 + (c * 2 ^ 16 + (b * 2 ^ 8 + a)))) := by
    rw [Nat.lor_comm, Nat.mul_comm f (2 ^ 40), ← Nat.mul_add_lt_is_or (by omega),
      Nat.mul_comm (2 ^ 40) f]
  rw [e5]
  have e6 : f * 2 ^ 40 + (e * 2 ^ 32 + (d * 2 ^ 24 + (c * 2 ^ 16 + (b * 2 ^ 8 + a)))) |||
        g * 2 ^ 48 =
      g * 2 ^ 48 +
        (f * 2 ^ 40 + (e * 2 ^ 32 + (d * 2 ^ 24 + (c * 2 ^ 16 + (b * 2 ^ 8 + a))))) := by
    rw [Nat.lor_comm, Nat.mul_comm g (2 ^ 48), ← Nat.mul_add_lt_is_or (by omega),
      Nat.mul_comm (2 ^ 48) g]
  rw [e6]
  have e7 : g * 2 ^ 48 +
        (f * 2 ^ 40 + (e * 2 ^ 32 + (d * 2 ^ 24 + (c * 2 ^ 16 + (b * 2 ^ 8 + a))))) |||
        h * 2 ^ 56 =
      h * 2 ^ 56 + (g * 2 ^ 48 +
        (f * 2 ^ 40 + (e * 2 ^ 32 + (d * 2 ^ 24 + (c * 2 ^ 16 + (b * 2 ^ 8 + a)))))) := by
    rw [Nat.lor_comm, Nat.mul_comm h (2 ^ 56), ← Nat.mul_add_lt_is_or (by omega),
      Nat.mul_comm (2 ^ 56) h]
  rw [e7]
  ring

lemma bytes_le_to_u64_u64_to_bytes_le {u : Nat} (hu : u < 2 ^ 64) :
    bytes_le_to_u64 (u64_to_bytes_le u) = u := by
  unfold u64_to_bytes_le
  rw [bytes_le_to_u64_eq_sum (Nat.mod_lt _ (by norm_num)) (Nat.mod_lt _ (by norm_num))
    (Nat.mod_lt _ (by norm_num)) (Nat.mod_lt _ (by norm_num)) (Nat.mod_lt _ (by norm_num))
    (Nat.mod_lt _ (by norm_num)) (Nat.mod_lt _ (by norm_num)) (Nat.mod_lt _ (by norm_num))]
  simp only [Nat.shiftRight_eq_div_pow]
  norm_num
  omega

lemma u64_to_bytes_le_bytes_le_to_u64 {s : List Nat} (hlen : s.length = 8)
    (hv : BytesValid s) : u64_to_bytes_le (bytes_le_to_u64 s) = s := by
  obtain ⟨a, b, c, d, e, f, g, h, rfl⟩ :
      ∃ a b c d e f g h, s = [a, b, c, d, e, f, g, h] := by
    rcases s with _ | ⟨a, _ | ⟨b, _ | ⟨c, _ | ⟨d, _ | ⟨e, _ | ⟨f, _ | ⟨g, _ | ⟨h, _ | ⟨i, t⟩⟩⟩⟩⟩⟩⟩⟩⟩ <;>
      simp_all
  have ha : a < 256 := hv a (by simp)
  have hb : b < 256 := hv b (by simp)
  have hc : c < 256 := hv c (by simp)
  have hd : d < 256 := hv d (by simp)
  have he : e < 256 := hv e (by simp)
  have hf : f < 256 := hv f (by simp)
  have hg : g < 256 := hv g (by simp)
  have hh : h < 256 := hv h (by simp)
  rw [bytes_le_to_u64_eq_sum ha hb hc hd he hf hg hh]
  unfold u64_to_bytes_le
  simp only [Nat.shiftRight_eq_div_pow]
  norm_num
  refine ⟨by omega, by omega, by omega, by omega, by omega, by omega, by omega, by omega⟩

lemma bytes_le_to_u64_lt {s : List Nat} (hv : BytesValid s) :
    bytes_le_to_u64 s < 2 ^ 64 := by
  unfold bytes_le_to_u64
  have h64 : ∀ i sh, sh + 8 ≤ 64 → (s.getD i 0) <<< sh < 2 ^ 64 := by
    intro i sh hsh
    have := getD_lt hv i
    calc (s.getD i 0) <<< sh = s.getD i 0 * 2 ^ sh := Nat.shiftLeft_eq _ _
      _ < 256 * 2 ^ sh := by
          have hp : 0 < 2 ^ sh := Nat.pos_pow_of_pos sh (by norm_num)
          exact Nat.mul_lt_mul_of_lt_of_le this (Nat.le_refl _) hp
      _ = 2 ^ (sh + 8) := by rw [pow_add]; ring
      _ ≤ 2 ^ 64 := Nat.pow_le_pow_right (by norm_num) hsh
  have hb0 : s.getD 0 0 < 2 ^ 64 := lt_trans (getD_lt hv 0) (by norm_num)
  exact Nat.or_lt_two_pow (Nat.or_lt_two_pow (Nat.or_lt_two_pow (Nat.or_lt_two_pow
    (Nat.or_lt_two_pow (Nat.or_lt_two_pow (Nat.or_lt_two_pow hb0
      (h64 1 8 (by norm_num))) (h64 2 16 (by norm_num))) (h64 3 24 (by norm_num)))
        (h64 4 32 (by norm_num))) (h64 5 40 (by norm_num))) (h64 6 48 (by norm_num)))
          (h64 7 56 (by norm_num))

lemma encrypt_id_lt (k : Subkeys) (u : Nat) : encrypt_id k u < 2 ^ 64 :=
  bytes_le_to_u64_lt (SparxEncryptBytes_valid _ _)

lemma decrypt_id_lt (k : Subkeys) (u : Nat) : decrypt_id k u < 2 ^ 64 :=
  bytes_le_to_u64_lt (bytes_of_blk_valid _)

/-- The uint64-level cipher round trip used by `Generate`/`Inspect`. -/
lemma decrypt_encrypt_id {k : Subkeys} (hk : SubkeysBounded k) {u : Nat}
    (hu : u < 2 ^ 64) : decrypt_id k (encrypt_id k u) = u := by
  unfold encrypt_id decrypt_id
  rw [u64_to_bytes_le_bytes_le_to_u64 (SparxEncryptBytes_length _ _)
    (SparxEncryptBytes_valid _ _)]
  rw [sparx_bytes_roundtrip hk (u64_to_bytes_le_length u) (u64_to_bytes_le_valid u)]
  exact bytes_le_to_u64_u64_to_bytes_le hu

/-! ## Claim C1: cipher bijectivity -/

/-- C1: for every 16-byte key and every 8-byte block, decrypting the
encryption of the block under the key schedule derived from that key
returns the block: the SPARX-64/128 transform is a bijection on the
2^64 block space. -/
theorem sparx_decrypt_encrypt_roundtrip (key : List Nat) (_hklen : key.length = 16)
    (hkey : BytesValid key) (src : List Nat) (hlen : src.length = 8)
    (hsrc : BytesValid src) :
    SparxDecryptBytes (NewSparx64 key) (SparxEncryptBytes (NewSparx64 key) src) = src :=
  sparx_bytes_roundtrip (NewSparx64_bounded hkey) hlen hsrc

/-- Ground instance of C1 at the repository's test vector. -/
theorem sparx_decrypt_encrypt_roundtrip_witness :
    sparxTestKey.length = 16 ∧ BytesValid sparxTestKey ∧
      sparxTestPlain.length = 8 ∧ BytesValid sparxTestPlain ∧
      SparxDecryptBytes (NewSparx64 sparxTestKey)
        (SparxEncryptBytes (NewSparx64 sparxTestKey) sparxTestPlain) = sparxTestPlain :=
  ⟨by decide, by decide, by decide, by decide,
   sparx_decrypt_encrypt_roundtrip sparxTestKey (by decide) (by decide) sparxTestPlain
     (by decide) (by decide)⟩

/-! ## Claim C3: known-answer vector -/

/-- C3: encrypting the block 0x0123456789abcdef under the key
0x00112233445566778899aabbccddeeff (bytes packed big-endian into 16-bit
words) yields exactly the ciphertext bytes 0x2bbef15201f55f98. -/
theorem sparx_known_answer_vector :
    SparxEncryptBytes (NewSparx64 sparxTestKey) sparxTestPlain =
      [0x2b, 0xbe, 0xf1, 0x52, 0x01, 0xf5, 0x5f, 0x98] := by
  decide

/-! ## Raw-value packing and unpacking -/

lemma int64_to_u64_of_nonneg {i : Int} (h0 : 0 ≤ i) (hlt : i < 2 ^ 64) :
    int64_to_u64 i = i.toNat := by
  unfold int64_to_u64
  rw [Int.emod_eq_of_lt h0 hlt]

lemma int64_to_u64_u64_to_int64 {n : Nat} (h : n < 2 ^ 64) :
    int64_to_u64 (u64_to_int64 n) = n := by
  unfold int64_to_u64 u64_to_int64
  split_ifs with hlt
  · omega
  · omega

lemma pack_raw_pattern {ts node seq : Int} (hts0 : 0 ≤ ts) (hts : ts < 2 ^ 30)
    (hn0 : 0 ≤ node) (hn : node < 2 ^ 17) (hs0 : 0 ≤ seq) (hs : seq < 2 ^ 17) :
    int64_to_u64 (pack_raw ts node seq) =
      ts.toNat * 2 ^ 34 + node.toNat * 2 ^ 17 + seq.toNat := by
  unfold pack_raw
  rw [int64_to_u64_of_nonneg hts0 (by omega), int64_to_u64_of_nonneg hn0 (by omega),
    int64_to_u64_of_nonneg hs0 (by omega)]
  have htsn : ts.toNat < 2 ^ 30 := by omega
  have hnn : node.toNat < 2 ^ 17 := by omega
  have hsn : seq.toNat < 2 ^ 17 := by omega
  rw [Nat.shiftLeft_eq, Nat.shiftLeft_eq,
    Nat.mod_eq_of_lt (show ts.toNat * 2 ^ 34 < 2 ^ 64 by
      calc ts.toNat * 2 ^ 34 < 2 ^ 30 * 2 ^ 34 :=
            Nat.mul_lt_mul_of_lt_of_le htsn (Nat.le_refl _) (by norm_num)
        _ = 2 ^ 64 := by norm_num),
    Nat.mod_eq_of_lt (show node.toNat * 2 ^ 17 < 2 ^ 64 by
      calc node.toNat * 2 ^ 17 < 2 ^ 17 * 2 ^ 17 :=
            Nat.mul_lt_mul_of_lt_of_le hnn (Nat.le_refl _) (by norm_num)
        _ ≤ 2 ^ 64 := by norm_num)]
  rw [Nat.lor_assoc]
  have e1 : node.toNat * 2 ^ 17 ||| seq.toNat = node.toNat * 2 ^ 17 + seq.toNat := by
    rw [Nat.mul_comm node.toNat (2 ^ 17), ← Nat.mul_add_lt_is_or hsn,
      Nat.mul_comm (2 ^ 17) node.toNat]
  rw [e1]
  have e2 : ts.toNat * 2 ^ 34 ||| (node.toNat * 2 ^ 17 + seq.toNat) =
      ts.toNat * 2 ^ 34 + (node.toNat * 2 ^ 17 + seq.toNat) := by
    have hmid : node.toNat * 2 ^ 17 + seq.toNat < 2 ^ 34 := by
      have h2 : node.toNat * 2 ^ 17 ≤ (2 ^ 17 - 1) * 2 ^ 17 :=
        Nat.mul_le_mul_right _ (by omega)
      omega
    rw [Nat.mul_comm ts.toNat (2 ^ 34), ← Nat.mul_add_lt_is_or hmid,
      Nat.mul_comm (2 ^ 34) ts.toNat]
  rw [e2]
  have hsum : ts.toNat * 2 ^ 34 + (node.toNat * 2 ^ 17 + seq.toNat) < 2 ^ 64 := by
    have h1 : ts.toNat * 2 ^ 34 ≤ (2 ^ 30 - 1) * 2 ^ 34 :=
      Nat.mul_le_mul_right _ (by omega)
    have h2 : node.toNat * 2 ^ 17 ≤ (2 ^ 17 - 1) * 2 ^ 17 :=
      Nat.mul_le_mul_right _ (by omega)
    omega
  rw [int64_to_u64_u64_to_int64 hsum, Nat.add_assoc]

lemma pack_pattern_lt {tsn noden seqn : Nat} (hts : tsn < 2 ^ 30) (hn : noden < 2 ^ 17)
    (hs : seqn < 2 ^ 17) : tsn * 2 ^ 34 + noden * 2 ^ 17 + seqn < 2 ^ 64 := by
  have h1 : tsn * 2 ^ 34 ≤ (2 ^ 30 - 1) * 2 ^ 34 := Nat.mul_le_mul_right _ (by omega)
  have h2 : noden * 2 ^ 17 ≤ (2 ^ 17 - 1) * 2 ^ 17 := Nat.mul_le_mul_right _ (by omega)
  omega

lemma pack_pattern_lt_half {tsn noden seqn : Nat} (hts : tsn < 2 ^ 29)
    (hn : noden < 2 ^ 17) (hs : seqn < 2 ^ 17) :
    tsn * 2 ^ 34 + noden * 2 ^ 17 + seqn < 2 ^ 63 := by
  have h1 : tsn * 2 ^ 34 ≤ (2 ^ 29 - 1) * 2 ^ 34 := Nat.mul_le_mul_right _ (by omega)
  have h2 : noden * 2 ^ 17 ≤ (2 ^ 17 - 1) * 2 ^ 17 := Nat.mul_le_mul_right _ (by omega)
  omega

lemma unpack_fields {tsn noden seqn : Nat} (_hts : tsn < 2 ^ 30) (hn : noden < 2 ^ 17)
    (hs : seqn < 2 ^ 17) :
    (tsn * 2 ^ 34 + noden * 2 ^ 17 + seqn) >>> 34 = tsn ∧
      ((tsn * 2 ^ 34 + noden * 2 ^ 17 + seqn) >>> 17) &&& 131071 = noden ∧
      (tsn * 2 ^ 34 + noden * 2 ^ 17 + seqn) &&& 131071 = seqn := by
  rw [Nat.shiftRight_eq_div_pow, Nat.shiftRight_eq_div_pow,
    show (131071 : Nat) = 2 ^ 17 - 1 from by norm_num, Nat.and_pow_two_sub_one_eq_mod,
    Nat.and_pow_two_sub_one_eq_mod]
  have h2 : noden * 2 ^ 17 ≤ (2 ^ 17 - 1) * 2 ^ 17 := Nat.mul_le_mul_right _ (by omega)
  refine ⟨by omega, ?_, by omega⟩
  have e : (tsn * 2 ^ 34 + noden * 2 ^ 17 + seqn) / 2 ^ 17 = tsn * 2 ^ 17 + noden := by
    omega
  rw [e]
  omega

/-- Every successful sequential `newRAW` records the clock second, keeps the
node id and cipher, stores the sequence it used, and returns the packed raw
value. -/
lemma newRAW_ok {g : Generator} {now raw : Int} {g2 : Generator}
    (hseq : 0 ≤ g.sequence) (h : newRAW g now = .ok (raw, g2)) :
    g.leaseStart ≤ now ∧ now ≤ g.leaseEnd ∧ 0 ≤ g2.sequence ∧
      g2.sequence ≤ RANDFLAKE_MAX_SEQUENCE ∧
      raw = pack_raw (now - RANDFLAKE_EPOCH_OFFSET) g.nodeID g2.sequence ∧
      g2.nodeID = g.nodeID ∧ g2.sbox = g.sbox := by
  unfold newRAW at h
  by_cases h1 : now < g.leaseStart
  · rw [if_pos h1] at h
    exact absurd h (by simp)
  rw [if_neg h1] at h
  by_cases h2 : now > g.leaseEnd
  · rw [if_pos h2] at h
    exact absurd h (by simp)
  rw [if_neg h2] at h
  simp only at h
  by_cases h3 : g.sequence + 1 > RANDFLAKE_MAX_SEQUENCE
  · rw [if_pos h3] at h
    by_cases h4 : now > g.rollover
    · rw [if_pos h4] at h
      simp only [Except.ok.injEq, Prod.mk.injEq] at h
      obtain ⟨hraw, hg2⟩ := h
      subst hg2
      refine ⟨by omega, by omega, by simp, by simp [RANDFLAKE_MAX_SEQUENCE], ?_, rfl, rfl⟩
      simpa using hraw.symm
    · rw [if_neg h4] at h
      by_cases h5 : now < g.rollover
      · rw [if_pos h5] at h
        exact absurd h (by simp)
      · rw [if_neg h5] at h
        exact absurd h (by simp)
  · rw [if_neg h3] at h
    simp only [Except.ok.injEq, Prod.mk.injEq] at h
    obtain ⟨hraw, hg2⟩ := h
    subst hg2
    refine ⟨by omega, by omega, by simp; omega, by simp; omega, ?_, rfl, rfl⟩
    simpa using hraw.symm

/-- `Generate` success unfolded into its `newRAW` witness. -/
lemma Generate_ok {g : Generator} {now id : Int} {g2 : Generator}
    (h : Generate g now = .ok (id, g2)) :
    ∃ raw : Int, newRAW g now = .ok (raw, g2) ∧
      id = u64_to_int64 (encrypt_id g2.sbox (int64_to_u64 raw)) := by
  unfold Generate at h
  cases hm : newRAW g now with
  | error e =>
    rw [hm] at h
    exact absurd h (by simp)
  | ok p =>
    rw [hm] at h
    obtain ⟨raw, g2x⟩ := p
    simp only [Except.ok.injEq, Prod.mk.injEq] at h
    obtain ⟨hid, hg2⟩ := h
    subst hg2
    exact ⟨raw, rfl, hid.symm⟩

lemma Inspect_eq (g : Generator) (id : Int) :
    Inspect g id =
      if 2 ^ 63 ≤ decrypt_id g.sbox (int64_to_u64 id) then .error .invalidLease
      else .ok (((decrypt_id g.sbox (int64_to_u64 id) >>> 34 : Nat) : Int) +
          RANDFLAKE_EPOCH_OFFSET,
        ((((decrypt_id g.sbox (int64_to_u64 id)) >>> 17) &&& 131071 : Nat) : Int),
        (((decrypt_id g.sbox (int64_to_u64 id)) &&& 131071 : Nat) : Int)) := rfl

/-! ## Claim C2: Generate/Inspect round trip (amended) -/

/-- C2 (amended): for every reachable generator whose cipher comes from a
16-byte secret and every clock second from the epoch up to
`EPOCH_OFFSET + 2^29 - 1`, a successful `Generate` produces an id that
`Inspect` (same secret) maps back to exactly the clock second, the node id
and the sequence used.  (As originally stated — for all timestamps up to
`RANDFLAKE_MAX_TIMESTAMP` — the claim fails: from `EPOCH_OFFSET + 2^29` on,
the raw value has bit 63 set and `Inspect` rejects the generator's own
identifiers; see the counterexample.) -/
theorem generate_inspect_roundtrip (g : Generator) (secret : List Nat)
    (hsbox : g.sbox = NewSparx64 secret) (hsecret : BytesValid secret)
    (hn0 : 0 ≤ g.nodeID) (hn1 : g.nodeID ≤ RANDFLAKE_MAX_NODE)
    (hseq : 0 ≤ g.sequence) {now id : Int} {g2 : Generator}
    (hnow0 : RANDFLAKE_EPOCH_OFFSET ≤ now)
    (hnow1 : now ≤ RANDFLAKE_EPOCH_OFFSET + 2 ^ 29 - 1)
    (hgen : Generate g now = .ok (id, g2)) :
    Inspect g id = .ok (now, g.nodeID, g2.sequence) := by
  obtain ⟨raw, hnr, hid⟩ := Generate_ok hgen
  obtain ⟨hA, hB, hs0, hs1, hraw, hnodeEq, hsboxEq⟩ := newRAW_ok hseq hnr
  simp only [RANDFLAKE_EPOCH_OFFSET] at hnow0 hnow1
  simp only [RANDFLAKE_MAX_NODE] at hn1
  simp only [RANDFLAKE_MAX_SEQUENCE] at hs1
  have hts0 : (0 : Int) ≤ now - RANDFLAKE_EPOCH_OFFSET := by
    simp only [RANDFLAKE_EPOCH_OFFSET]
    omega
  have hts1 : now - RANDFLAKE_EPOCH_OFFSET < 2 ^ 30 := by
    simp only [RANDFLAKE_EPOCH_OFFSET]
    omega
  have hn2 : g.nodeID < 2 ^ 17 := by omega
  have hs2 : g2.sequence < 2 ^ 17 := by omega
  have hpat : int64_to_u64 raw =
      (now - RANDFLAKE_EPOCH_OFFSET).toNat * 2 ^ 34 + g.nodeID.toNat * 2 ^ 17 +
        g2.sequence.toNat := by
    rw [hraw]
    exact pack_raw_pattern hts0 hts1 hn0 hn2 hs0 hs2
  have htsn : (now - RANDFLAKE_EPOCH_OFFSET).toNat < 2 ^ 29 := by
    simp only [RANDFLAKE_EPOCH_OFFSET] at hts0 ⊢
    omega
  have hnn : g.nodeID.toNat < 2 ^ 17 := by omega
  have hsn : g2.sequence.toNat < 2 ^ 17 := by omega
  have hlt63 : (now - RANDFLAKE_EPOCH_OFFSET).toNat * 2 ^ 34 + g.nodeID.toNat * 2 ^ 17 +
      g2.sequence.toNat < 2 ^ 63 := pack_pattern_lt_half htsn hnn hsn
  have henc : int64_to_u64 id = encrypt_id g.sbox (int64_to_u64 raw) := by
    rw [hid, hsboxEq]
    exact int64_to_u64_u64_to_int64 (encrypt_id_lt _ _)
  have hdec : decrypt_id g.sbox (int64_to_u64 id) = int64_to_u64 raw := by
    rw [henc, hsbox]
    exact decrypt_encrypt_id (NewSparx64_bounded hsecret) (by rw [hpat]; omega)
  rw [Inspect_eq, hdec, hpat]
  have hts30 : (now - RANDFLAKE_EPOCH_OFFSET).toNat < 2 ^ 30 := by omega
  obtain ⟨u1, u2, u3⟩ := unpack_fields hts30 hnn hsn
  rw [if_neg (by omega), u1, u2, u3]
  have c1 : (((now - RANDFLAKE_EPOCH_OFFSET).toNat : Int)) + RANDFLAKE_EPOCH_OFFSET = now := by
    rw [Int.toNat_of_nonneg hts0]
    ring
  have c2 : ((g.nodeID.toNat : Nat) : Int) = g.nodeID := Int.toNat_of_nonneg hn0
  have c3 : ((g2.sequence.toNat : Nat) : Int) = g2.sequence := Int.toNat_of_nonneg hs0
  rw [c1, c2, c3]

/-- C2 counterexample: with the test secret, a full lease
`[EPOCH_OFFSET, MAX_TIMESTAMP]` and the clock at `EPOCH_OFFSET + 2^29`
(within the lease window), `Generate` succeeds but `Inspect` rejects the
very identifier it produced, refuting the round trip "up to the maximum
timestamp" as originally claimed. -/
theorem generate_inspect_roundtrip_counterexample :
    Generate testGenerator (1730000000 + 2 ^ 29) =
      .ok (-8444935871952453254, { testGenerator with sequence := 1 }) ∧
      Inspect testGenerator (-8444935871952453254) = .error .invalidLease ∧
      testGenerator.leaseStart ≤ 1730000000 + 2 ^ 29 ∧
      (1730000000 : Int) + 2 ^ 29 ≤ testGenerator.leaseEnd := by
  refine ⟨by decide, by decide, by decide, by decide⟩

/-- Ground instance of the amended C2 at clock second 1730000001. -/
theorem generate_inspect_roundtrip_witness :
    Inspect testGenerator (-6327667692093861532) = .ok (1730000001, 0, 1) :=
  generate_inspect_roundtrip testGenerator sparxTestKey rfl (by decide) (by decide)
    (by decide) (by decide) (by decide) (by decide)
    (show Generate testGenerator 1730000001 =
      .ok (-6327667692093861532, { testGenerator with sequence := 1 }) by decide)

/-! ## Claim C9: bounds of the fields returned by Inspect -/

/-- C9: whenever `Inspect` returns without error, the timestamp lies in
`[EPOCH_OFFSET, EPOCH_OFFSET + 2^29 - 1]` and the node id and sequence lie
in `[0, 131071]`: the accepted (non-negative) raw value keeps the 30-bit
timestamp field below `2^29`. -/
theorem inspect_field_bounds (g : Generator) (id t n s : Int)
    (h : Inspect g id = .ok (t, n, s)) :
    RANDFLAKE_EPOCH_OFFSET ≤ t ∧ t ≤ RANDFLAKE_EPOCH_OFFSET + 2 ^ 29 - 1 ∧
      0 ≤ n ∧ n ≤ 131071 ∧ 0 ≤ s ∧ s ≤ 131071 := by
  rw [Inspect_eq] at h
  have hu64 : decrypt_id g.sbox (int64_to_u64 id) < 2 ^ 64 := decrypt_id_lt _ _
  by_cases hneg : 2 ^ 63 ≤ decrypt_id g.sbox (int64_to_u64 id)
  · rw [if_pos hneg] at h
    exact absurd h (by simp)
  · rw [if_neg hneg] at h
    simp only [Except.ok.injEq, Prod.mk.injEq] at h
    obtain ⟨ht, hn, hs⟩ := h
    subst ht hn hs
    push_neg at hneg
    have hsr : decrypt_id g.sbox (int64_to_u64 id) >>> 34 < 2 ^ 29 := by
      rw [Nat.shiftRight_eq_div_pow]
      omega
    have hm1 : (decrypt_id g.sbox (int64_to_u64 id) >>> 17) &&& 131071 ≤ 131071 := by
      rw [show (131071 : Nat) = 2 ^ 17 - 1 from by norm_num,
        Nat.and_pow_two_sub_one_eq_mod]
      have := Nat.mod_lt (decrypt_id g.sbox (int64_to_u64 id) >>> 17)
        (show 0 < 2 ^ 17 by norm_num)
      omega
    have hm2 : decrypt_id g.sbox (int64_to_u64 id) &&& 131071 ≤ 131071 := by
      rw [show (131071 : Nat) = 2 ^ 17 - 1 from by norm_num,
        Nat.and_pow_two_sub_one_eq_mod]
      have := Nat.mod_lt (decrypt_id g.sbox (int64_to_u64 id))
        (show 0 < 2 ^ 17 by norm_num)
      omega
    simp only [RANDFLAKE_EPOCH_OFFSET]
    refine ⟨by omega, by omega, by omega, by omega, by omega, by omega⟩

/-- Ground instance of C9 at a concrete identifier that `Inspect` accepts. -/
theorem inspect_field_bounds_witness :
    Inspect testGenerator 1234567890 =
      .ok (1949205306, 73473, 74580) ∧
      RANDFLAKE_EPOCH_OFFSET ≤ (1949205306 : Int) ∧
      (1949205306 : Int) ≤ RANDFLAKE_EPOCH_OFFSET + 2 ^ 29 - 1 ∧
      (0 : Int) ≤ 73473 ∧ (73473 : Int) ≤ 131071 ∧
      (0 : Int) ≤ 74580 ∧ (74580 : Int) ≤ 131071 := by
  have h := inspect_field_bounds testGenerator 1234567890 1949205306 73473 74580
    (by decide)
  exact ⟨by decide, h.1, h.2.1, h.2.2.1, h.2.2.2.1, h.2.2.2.2.1, h.2.2.2.2.2⟩

/-! ## Claim C4: sequence rollover three-way branch -/

/-- C4: when the incremented sequence exceeds 131071 and the clock is inside
the lease window, a sequential `Generate` (via `newRAW`): advances the
rollover to `now`, resets the sequence and succeeds with sequence 0 if
`now > rollover`; fails `ResourceExhausted` if `now = rollover`; fails
`ConsistencyViolation` if `now < rollover`. -/
theorem newRAW_rollover_branches (g : Generator) (now : Int)
    (hwin0 : g.leaseStart ≤ now) (hwin1 : now ≤ g.leaseEnd)
    (hover : g.sequence + 1 > RANDFLAKE_MAX_SEQUENCE) :
    (now > g.rollover →
      newRAW g now = .ok (pack_raw (now - RANDFLAKE_EPOCH_OFFSET) g.nodeID 0,
        { g with rollover := now, sequence := 0 })) ∧
    (now = g.rollover → newRAW g now = .error .resourceExhausted) ∧
    (now < g.rollover → newRAW g now = .error .consistencyViolation) := by
  unfold newRAW
  rw [if_neg (by omega), if_neg (by omega)]
  simp only
  rw [if_pos hover]
  refine ⟨?_, ?_, ?_⟩
  · intro h
    rw [if_pos h]
  · intro h
    rw [if_neg (by omega), if_neg (by omega)]
  · intro h
    rw [if_neg (by omega), if_pos h]

/-- Ground instances of C4: all three rollover branches at concrete states. -/
theorem newRAW_rollover_branches_witness :
    newRAW { testGenerator with sequence := 131071 } 1730000005 =
      .ok (85899345920, { testGenerator with sequence := 0, rollover := 1730000005 }) ∧
    newRAW { testGenerator with sequence := 131071, rollover := 1730000005 } 1730000005 =
      .error .resourceExhausted ∧
    newRAW { testGenerator with sequence := 131071, rollover := 1730000006 } 1730000005 =
      .error .consistencyViolation :=
  ⟨(newRAW_rollover_branches { testGenerator with sequence := 131071 } 1730000005
      (by decide) (by decide) (by decide)).1 (by decide),
   (newRAW_rollover_branches { testGenerator with sequence := 131071, rollover := 1730000005 }
      1730000005 (by decide) (by decide) (by decide)).2.1 (by decide),
   (newRAW_rollover_branches { testGenerator with sequence := 131071, rollover := 1730000006 }
      1730000005 (by decide) (by decide) (by decide)).2.2 (by decide)⟩

/-! ## Claim C7: constructor validation -/

/-- C7: `NewGenerator` validates its arguments in the source's check order
and returns no generator on failure: node id −1 or 131072 (other arguments
valid) gives `InvalidNode`; `leaseEnd < leaseStart` gives `InvalidLease`;
`leaseStart` before the epoch (other arguments valid) gives `InvalidLease`;
`leaseEnd` past the horizon gives `RandflakeDead`; a secret whose length is
not 16 gives `InvalidSecret`; with every argument valid it succeeds. -/
theorem NewGenerator_validation :
    (∀ (ls le : Int) (s : List Nat), RANDFLAKE_EPOCH_OFFSET ≤ ls → ls ≤ le →
      le ≤ RANDFLAKE_MAX_TIMESTAMP → s.length = 16 →
      NewGenerator (-1) ls le s = .error .invalidNode ∧
        NewGenerator 131072 ls le s = .error .invalidNode) ∧
    (∀ (n ls le : Int) (s : List Nat), le < ls →
      NewGenerator n ls le s = .error .invalidLease) ∧
    (∀ (n ls le : Int) (s : List Nat), 0 ≤ n → n ≤ RANDFLAKE_MAX_NODE → ls ≤ le →
      ls < RANDFLAKE_EPOCH_OFFSET → NewGenerator n ls le s = .error .invalidLease) ∧
    (∀ (n ls le : Int) (s : List Nat), 0 ≤ n → n ≤ RANDFLAKE_MAX_NODE →
      RANDFLAKE_EPOCH_OFFSET ≤ ls → ls ≤ le → RANDFLAKE_MAX_TIMESTAMP < le →
      NewGenerator n ls le s = .error .randflakeDead) ∧
    (∀ (n ls le : Int) (s : List Nat), 0 ≤ n → n ≤ RANDFLAKE_MAX_NODE →
      RANDFLAKE_EPOCH_OFFSET ≤ ls → ls ≤ le → le ≤ RANDFLAKE_MAX_TIMESTAMP →
      s.length ≠ 16 → NewGenerator n ls le s = .error .invalidSecret) ∧
    (∀ (n ls le : Int) (s : List Nat), 0 ≤ n → n ≤ RANDFLAKE_MAX_NODE →
      RANDFLAKE_EPOCH_OFFSET ≤ ls → ls ≤ le → le ≤ RANDFLAKE_MAX_TIMESTAMP →
      s.length = 16 →
      NewGenerator n ls le s = .ok ⟨ls, le, n, 0, ls, NewSparx64 s⟩) := by
  have hMN : RANDFLAKE_MAX_NODE = (131071 : Int) := by decide
  have hMT : RANDFLAKE_MAX_TIMESTAMP = (2803741823 : Int) := by decide
  have hE : RANDFLAKE_EPOCH_OFFSET = (1730000000 : Int) := rfl
  refine ⟨?_, ?_, ?_, ?_, ?_, ?_⟩
  · intro ls le s h1 h2 h3 h4
    rw [hE] at h1
    rw [hMT] at h3
    unfold NewGenerator
    constructor
    · rw [if_neg (by omega), if_pos (by left; omega)]
    · rw [if_neg (by omega), if_pos (by right; rw [hMN]; omega)]
  · intro n ls le s h1
    unfold NewGenerator
    rw [if_pos h1]
  · intro n ls le s h1 h2 h3 h4
    rw [hMN] at h2
    rw [hE] at h4
    unfold NewGenerator
    rw [if_neg (by omega), if_neg (by rw [hMN]; omega), if_pos (by rw [hE]; omega)]
  · intro n ls le s h1 h2 h3 h4 h5
    rw [hMN] at h2
    rw [hE] at h3
    rw [hMT] at h5
    unfold NewGenerator
    rw [if_neg (by omega), if_neg (by rw [hMN]; omega), if_neg (by rw [hE]; omega),
      if_pos (by rw [hMT]; omega)]
  · intro n ls le s h1 h2 h3 h4 h5 h6
    rw [hMN] at h2
    rw [hE] at h3
    rw [hMT] at h5
    unfold NewGenerator
    rw [if_neg (by omega), if_neg (by rw [hMN]; omega), if_neg (by rw [hE]; omega),
      if_neg (by rw [hMT]; omega), if_pos h6]
  · intro n ls le s h1 h2 h3 h4 h5 h6
    rw [hMN] at h2
    rw [hE] at h3
    rw [hMT] at h5
    unfold NewGenerator
    rw [if_neg (by omega), if_neg (by rw [hMN]; omega), if_neg (by rw [hE]; omega),
      if_neg (by rw [hMT]; omega), if_neg (by omega)]

/-- Ground instances of C7: one concrete input per validation branch. -/
theorem NewGenerator_validation_witness :
    NewGenerator (-1) 1730000000 1730000100 sparxTestKey = .error .invalidNode ∧
    NewGenerator 131072 1730000000 1730000100 sparxTestKey = .error .invalidNode ∧
    NewGenerator 0 1730000100 1730000000 sparxTestKey = .error .invalidLease ∧
    NewGenerator 0 1729999999 1730000100 sparxTestKey = .error .invalidLease ∧
    NewGenerator 0 1730000000 2803741824 sparxTestKey = .error .randflakeDead ∧
    NewGenerator 0 1730000000 1730000100 [1, 2, 3] = .error .invalidSecret ∧
    NewGenerator 0 1730000000 1730000100 sparxTestKey =
      .ok ⟨1730000000, 1730000100, 0, 0, 1730000000, NewSparx64 sparxTestKey⟩ :=
  ⟨(NewGenerator_validation.1 1730000000 1730000100 sparxTestKey (by decide) (by decide)
      (by decide) (by decide)).1,
   (NewGenerator_validation.1 1730000000 1730000100 sparxTestKey (by decide) (by decide)
      (by decide) (by decide)).2,
   NewGenerator_validation.2.1 0 1730000100 1730000000 sparxTestKey (by decide),
   NewGenerator_validation.2.2.1 0 1729999999 1730000100 sparxTestKey (by decide)
     (by decide) (by decide) (by decide),
   NewGenerator_validation.2.2.2.1 0 1730000000 2803741824 sparxTestKey (by decide)
     (by decide) (by decide) (by decide) (by decide),
   NewGenerator_validation.2.2.2.2.1 0 1730000000 1730000100 [1, 2, 3] (by decide)
     (by decide) (by decide) (by decide) (by decide) (by decide),
   NewGenerator_validation.2.2.2.2.2 0 1730000000 1730000100 sparxTestKey (by decide)
     (by decide) (by decide) (by decide) (by decide) (by decide)⟩

/-! ## Claim C8: UpdateLease -/

/-- C8: sequential `UpdateLease` returns a boolean and never fails; it
returns true and stores the new lease end exactly when the given start
equals the generator's fixed lease start, the new end is at least the
start, at most the maximum timestamp, and strictly greater than the stored
end; in every other case it returns false and leaves the state unchanged. -/
theorem UpdateLease_spec (g : Generator) (ls le : Int) :
    (UpdateLease g ls le = (true, { g with leaseEnd := le }) ↔
      ls = g.leaseStart ∧ ls ≤ le ∧ le ≤ RANDFLAKE_MAX_TIMESTAMP ∧ g.leaseEnd < le) ∧
    (¬(ls = g.leaseStart ∧ ls ≤ le ∧ le ≤ RANDFLAKE_MAX_TIMESTAMP ∧ g.leaseEnd < le) →
      UpdateLease g ls le = (false, g)) := by
  unfold UpdateLease
  by_cases h1 : ls ≠ g.leaseStart
  · rw [if_pos h1]
    constructor
    · constructor
      · intro h
        simp at h
      · intro hc
        exact absurd hc.1 h1
    · intro _
      rfl
  · rw [if_neg h1]
    push_neg at h1
    by_cases h2 : le < ls
    · rw [if_pos h2]
      constructor
      · constructor
        · intro h
          simp at h
        · intro hc
          omega
      · intro _
        rfl
    · rw [if_neg h2]
      by_cases h3 : le > RANDFLAKE_MAX_TIMESTAMP
      · rw [if_pos h3]
        constructor
        · constructor
          · intro h
            simp at h
          · intro hc
            omega
        · intro _
          rfl
      · rw [if_neg h3]
        by_cases h4 : g.leaseEnd < le
        · rw [if_pos h4]
          constructor
          · constructor
            · intro _
              exact ⟨h1, by omega, by omega, h4⟩
            · intro _
              rfl
          · intro hc
            exact absurd ⟨h1, by omega, by omega, h4⟩ hc
        · rw [if_neg h4]
          constructor
          · constructor
            · intro h
              simp at h
            · intro hc
              omega
          · intro _
            rfl

/-- Ground instances of C8: one successful extension and one rejected
mismatched-start call. -/
theorem UpdateLease_spec_witness :
    UpdateLease { testGenerator with leaseEnd := 1730000010 } 1730000000 1730000020 =
      (true, { testGenerator with leaseEnd := 1730000020 }) ∧
    UpdateLease { testGenerator with leaseEnd := 1730000010 } 1730000001 1730000020 =
      (false, { testGenerator with leaseEnd := 1730000010 }) :=
  ⟨(UpdateLease_spec { testGenerator with leaseEnd := 1730000010 } 1730000000
      1730000020).1.mpr (by decide),
   (UpdateLease_spec { testGenerator with leaseEnd := 1730000010 } 1730000001
      1730000020).2 (by decide)⟩

/-! ## Codec lemmas -/

lemma charVal_at_alphabet : ∀ d : Nat, d < 32 → charVal (b32hexchars.getD d ' ') = some d := by
  decide

lemma charVal_ne_eq {c : Char} {d : Nat} (h : charVal c = some d) : ¬c = '=' := by
  intro he
  subst he
  have hn : charVal '=' = none := by decide
  rw [hn] at h
  exact Option.noConfusion h

lemma decode_go_cons_valid {c : Char} {d : Nat} (hc : charVal c = some d)
    (num : Nat) (cs : List Char) :
    base32hexdecode_go num (c :: cs) =
      base32hexdecode_go (((num <<< 5) % 2 ^ 64 + d) % 2 ^ 64) cs := by
  conv_lhs => rw [base32hexdecode_go]
  rw [if_neg (charVal_ne_eq hc), hc]

lemma decode_go_encode_go (fuel : Nat) :
    ∀ (num a : Nat) (acc : List Char),
      (Nat.digits 32 num).length ≤ fuel →
      a * 32 ^ (Nat.digits 32 num).length + num < 2 ^ 64 →
      base32hexdecode_go a (base32hexencode_go fuel num acc) =
        base32hexdecode_go (a * 32 ^ (Nat.digits 32 num).length + num) acc := by
  induction fuel with
  | zero =>
    intro num a acc hfuel h
    have h0 : num = 0 := by
      by_contra h0
      rw [Nat.digits_def' (show (1 : Nat) < 32 by norm_num) (Nat.pos_of_ne_zero h0)] at hfuel
      simp at hfuel
    subst h0
    simp [base32hexencode_go]
  | succ fuel ih =>
    intro num a acc hfuel h
    by_cases h0 : num = 0
    · subst h0
      simp [base32hexencode_go]
    · rw [base32hexencode_go, if_neg h0]
      have hdiv : num >>> 5 = num / 32 := by
        rw [Nat.shiftRight_eq_div_pow]
      have hmod : num &&& 0x1f = num % 32 := by
        rw [show (0x1f : Nat) = 2 ^ 5 - 1 from by norm_num, Nat.and_pow_two_sub_one_eq_mod]
      have hlen : (Nat.digits 32 num).length = (Nat.digits 32 (num / 32)).length + 1 := by
        rw [Nat.digits_def' (show (1 : Nat) < 32 by norm_num) (Nat.pos_of_ne_zero h0)]
        simp
      have hpow : (32 : Nat) ^ ((Nat.digits 32 (num / 32)).length + 1) =
          32 ^ (Nat.digits 32 (num / 32)).length * 32 := pow_succ 32 _
      have hfuel2 : (Nat.digits 32 (num / 32)).length ≤ fuel := by omega
      have hsub : a * 32 ^ (Nat.digits 32 (num / 32)).length + num / 32 < 2 ^ 64 := by
        rw [hlen, hpow, ← Nat.mul_assoc] at h
        set B := a * 32 ^ (Nat.digits 32 (num / 32)).length with hB
        omega
      rw [hdiv, hmod, ih (num / 32) a _ hfuel2 hsub,
        decode_go_cons_valid (charVal_at_alphabet (num % 32) (by omega)) _ acc,
        hlen, hpow, ← Nat.mul_assoc, Nat.shiftLeft_eq,
        show (2 : Nat) ^ 5 = 32 from by norm_num]
      rw [hlen, hpow, ← Nat.mul_assoc] at h
      congr 1
      set B := a * 32 ^ (Nat.digits 32 (num / 32)).length with hB
      omega

lemma digits_len_le_13 {n : Nat} (hn : n < 2 ^ 64) : (Nat.digits 32 n).length ≤ 13 := by
  rcases Nat.eq_zero_or_pos n with h | h
  · subst h
    simp
  · rw [Nat.digits_len 32 n (by norm_num) (by omega)]
    have hlog : Nat.log 32 n < 13 := by
      refine Nat.log_lt_of_lt_pow (by omega) ?_
      calc n < 2 ^ 64 := hn
        _ < 32 ^ 13 := by norm_num
    omega

lemma base32hexdecode_encode {n : Nat} (hn : n < 2 ^ 64) :
    base32hexdecode (base32hexencode n) = .ok n := by
  by_cases h0 : n = 0
  · subst h0
    decide
  · unfold base32hexencode
    rw [if_neg h0]
    unfold base32hexdecode
    have hmk : (String.mk (base32hexencode_go 13 n [])).toList =
        base32hexencode_go 13 n [] := rfl
    rw [hmk, decode_go_encode_go 13 n 0 [] (digits_len_le_13 hn) (by simpa using hn)]
    simp only [Nat.zero_mul, Nat.zero_add]
    rfl

/-! ## Claim C5: codec round trip and encode vectors -/

/-- C5: for every unsigned 64-bit value, decoding the encoding returns the
same identifier after the signed/unsigned reinterpretation; 0 encodes as
"0"; and the signed value 4594531474933654033 encodes as
"3vgoe12ccb8gh". -/
theorem codec_roundtrip :
    (∀ n : Nat, n < 2 ^ 64 →
      DecodeString (EncodeString (u64_to_int64 n)) = .ok (u64_to_int64 n)) ∧
      EncodeString 0 = "0" ∧
      EncodeString 4594531474933654033 = "3vgoe12ccb8gh" := by
  refine ⟨?_, by decide, by decide⟩
  intro n hn
  unfold EncodeString DecodeString
  rw [int64_to_u64_u64_to_int64 hn, base32hexdecode_encode hn]

/-- Ground instance of C5 at n = 4594531474933654033. -/
theorem codec_roundtrip_witness :
    DecodeString (EncodeString (u64_to_int64 4594531474933654033)) =
      .ok (u64_to_int64 4594531474933654033) :=
  codec_roundtrip.1 4594531474933654033 (by decide)

lemma decode_go_all_valid :
    ∀ (cs : List Char) (a : Nat), (∀ c ∈ cs, (charVal c).isSome) →
      base32hexdecode_go a cs =
        .ok (cs.foldl (fun n c => ((n <<< 5) % 2 ^ 64 + (charVal c).getD 0) % 2 ^ 64) a)
  | [], a, _ => rfl
  | c :: cs, a, h => by
    obtain ⟨d, hd⟩ := Option.isSome_iff_exists.mp (h c (by simp))
    rw [decode_go_cons_valid hd, List.foldl_cons,
      decode_go_all_valid cs _ (fun x hx => h x (by simp [hx])), hd]
    simp

lemma decode_go_invalid :
    ∀ (cs : List Char) (a : Nat), '=' ∉ cs → (∃ c ∈ cs, charVal c = none) →
      base32hexdecode_go a cs = .error .invalidID
  | [], a, _, hex => by simp at hex
  | c :: cs, a, hne, hex => by
    cases hcv : charVal c with
    | none =>
      conv_lhs => rw [base32hexdecode_go]
      rw [if_neg (by simp at hne; exact fun h => hne.1 h.symm), hcv]
    | some d =>
      rw [decode_go_cons_valid hcv]
      refine decode_go_invalid cs _ (by simp at hne; exact hne.2) ?_
      obtain ⟨x, hx, hxn⟩ := hex
      rcases List.mem_cons.mp hx with h | h
      · subst h
        rw [hcv] at hxn
        exact Option.noConfusion hxn
      · exact ⟨x, h, hxn⟩

lemma decode_go_stops_at_eq :
    ∀ (pre post : List Char) (a : Nat), (∀ c ∈ pre, (charVal c).isSome) →
      base32hexdecode_go a (pre ++ '=' :: post) =
        .ok (pre.foldl (fun n c => ((n <<< 5) % 2 ^ 64 + (charVal c).getD 0) % 2 ^ 64) a)
  | [], post, a, _ => by
    rw [List.nil_append]
    conv_lhs => rw [base32hexdecode_go]
    rw [if_pos rfl]
    rfl
  | c :: pre, post, a, h => by
    obtain ⟨d, hd⟩ := Option.isSome_iff_exists.mp (h c (by simp))
    rw [List.cons_append, decode_go_cons_valid hd, List.foldl_cons,
      decode_go_stops_at_eq pre post _ (fun x hx => h x (by simp [hx])), hd]
    simp

/-! ## Claim C6: decode character handling (amended) -/

/-- The decode loop stops at the first `'='` and never looks past it: on
every character list it behaves exactly as on the prefix before the first
`'='`. -/
lemma decode_go_takeWhile :
    ∀ (cs : List Char) (a : Nat),
      base32hexdecode_go a cs =
        base32hexdecode_go a (cs.takeWhile (fun c => c != '='))
  | [], a => rfl
  | c :: cs, a => by
    by_cases he : c = '='
    · subst he
      rw [List.takeWhile_cons_of_neg (by simp)]
      conv_lhs => rw [base32hexdecode_go]
      rw [if_pos rfl]
      rfl
    · rw [List.takeWhile_cons_of_pos (by simp [he])]
      cases hcv : charVal c with
      | none =>
        conv_lhs => rw [base32hexdecode_go]
        conv_rhs => rw [base32hexdecode_go]
        rw [if_neg he, if_neg he, hcv]
      | some d =>
        rw [decode_go_cons_valid hcv, decode_go_cons_valid hcv,
          decode_go_takeWhile cs _]

lemma eq_not_mem_takeWhile (cs : List Char) :
    '=' ∉ cs.takeWhile (fun c => c != '=') := by
  intro hmem
  have := List.mem_takeWhile_imp hmem
  simp at this

/-- C6 (amended): decoding is case-insensitive — each of `0`-`9`, `a`-`v`,
`A`-`V` maps to its 5-bit value, uppercase and lowercase alike; the decode
loop stops at the first `'='`, ignoring it and everything after it (it
behaves on every input exactly as on the prefix before the first `'='`);
every input containing a character outside the alphabet before any `'='`
fails with `InvalidID`; otherwise the loop accumulates
`result = result*32 + digit` (on uint64) over the prefix before the first
`'='` and the result is reinterpreted as a signed 64-bit identifier.  (As
originally stated — any character outside the alphabet anywhere rejected —
the claim fails on strings containing `'='`, see the counterexample.) -/
theorem decode_case_insensitive_reject_accumulate :
    (∀ d : Nat, d < 10 → charVal (Char.ofNat ('0'.toNat + d)) = some d) ∧
    (∀ d : Nat, d < 22 →
      charVal (Char.ofNat ('a'.toNat + d)) = some (10 + d) ∧
        charVal (Char.ofNat ('A'.toNat + d)) = some (10 + d)) ∧
    (∀ (cs : List Char) (a : Nat),
      base32hexdecode_go a cs =
        base32hexdecode_go a (cs.takeWhile (fun c => c != '='))) ∧
    (∀ s : String,
      (∃ c ∈ s.toList.takeWhile (fun c => c != '='), charVal c = none) →
      DecodeString s = .error .invalidID) ∧
    (∀ s : String,
      (∀ c ∈ s.toList.takeWhile (fun c => c != '='), (charVal c).isSome) →
      DecodeString s = .ok (u64_to_int64
        ((s.toList.takeWhile (fun c => c != '=')).foldl
          (fun n c => ((n <<< 5) % 2 ^ 64 + (charVal c).getD 0) % 2 ^ 64) 0))) := by
  refine ⟨by decide, by decide, decode_go_takeWhile, ?_, ?_⟩
  · intro s hex
    unfold DecodeString base32hexdecode
    rw [decode_go_takeWhile s.toList 0,
      decode_go_invalid _ 0 (eq_not_mem_takeWhile s.toList) hex]
  · intro s h
    unfold DecodeString base32hexdecode
    rw [decode_go_takeWhile s.toList 0, decode_go_all_valid _ 0 h]

/-- C6 counterexample: the string `"="` consists of one character outside
the base32hex alphabet, yet `DecodeString` succeeds (the decode loop breaks
at `'='`), refuting the claim that every input containing a character
outside the alphabet fails with `InvalidID`. -/
theorem decode_eq_string_accepted_counterexample :
    DecodeString "=" = .ok 0 ∧ '=' ∉ b32hexchars :=
  ⟨by decide, by decide⟩

/-- Ground instances of C6: digit and letter mappings, the stop-at-`'='`
behavior on a string with junk after `'='`, rejected strings with a bad
character before the first `'='` (with and without a later `'='`), and
accumulated decodes (with and without an `'='` terminator). -/
theorem decode_case_insensitive_reject_accumulate_witness :
    charVal (Char.ofNat ('0'.toNat + 3)) = some 3 ∧
    charVal (Char.ofNat ('a'.toNat + 0)) = some 10 ∧
    charVal (Char.ofNat ('A'.toNat + 0)) = some 10 ∧
    base32hexdecode_go 0 "1=w!".toList =
      base32hexdecode_go 0 ("1=w!".toList.takeWhile (fun c => c != '=')) ∧
    DecodeString "w=" = .error .invalidID ∧
    DecodeString "w1" = .error .invalidID ∧
    DecodeString "1=!" = .ok 1 ∧
    DecodeString "12" = .ok 34 := by
  have h := decode_case_insensitive_reject_accumulate
  refine ⟨h.1 3 (by decide), (h.2.1 0 (by decide)).1, (h.2.1 0 (by decide)).2,
    h.2.2.1 "1=w!".toList 0, ?_, ?_, ?_, ?_⟩
  · exact h.2.2.2.1 "w=" ⟨'w', by decide, by decide⟩
  · exact h.2.2.2.1 "w1" ⟨'w', by decide, by decide⟩
  · exact (h.2.2.2.2 "1=!" (by decide)).trans (by decide)
  · exact (h.2.2.2.2 "12" (by decide)).trans (by decide)

/-! ## Claim C10: decoding never fails on alphabet strings, wraps mod 2^64,
and is not injective -/

/-- C10: for every string of alphabet characters, of any length — possibly
terminated by `'='` and arbitrary further characters — decoding succeeds,
accumulating `result*32 + digit` modulo `2^64`; consequently a string
longer than 13 symbols can decode to the same identifier as a shorter one
("10000000000000", fourteen symbols, decodes to 0 just like "0"), so
decoding is not injective. -/
theorem decode_wraps_and_not_injective :
    (∀ (pre post : List Char) (a : Nat), (∀ c ∈ pre, (charVal c).isSome) →
      base32hexdecode_go a (pre ++ '=' :: post) =
        .ok (pre.foldl (fun n c => ((n <<< 5) % 2 ^ 64 + (charVal c).getD 0) % 2 ^ 64) a) ∧
      base32hexdecode_go a pre =
        .ok (pre.foldl (fun n c => ((n <<< 5) % 2 ^ 64 + (charVal c).getD 0) % 2 ^ 64) a)) ∧
    DecodeString "10000000000000" = .ok 0 ∧
    DecodeString "0" = .ok 0 ∧
    ("10000000000000" : String) ≠ "0" ∧
    ("10000000000000" : String).length = 14 := by
  refine ⟨?_, by decide, by decide, by decide, by decide⟩
  intro pre post a h
  exact ⟨decode_go_stops_at_eq pre post a h, decode_go_all_valid pre a h⟩

/-- Ground instance of C10 at a one-symbol prefix. -/
theorem decode_wraps_and_not_injective_witness :
    base32hexdecode_go 0 (['v'] ++ '=' :: ['!']) = .ok 31 ∧
      base32hexdecode_go 0 ['v'] = .ok 31 := by
  have h := (decode_wraps_and_not_injective.1 ['v'] ['!'] 0 (by decide))
  simpa using h
